import Mathlib

/-!
Verification of the darkfactory asset-QA check & remediation decision engine.

Shallow embedding of `projects/asscheck/pipeline/`:
  schema.py, report_builder.py, geometry.py, uv.py, texture.py, pbr.py,
  armature.py, scene.py, remediate.py.

Modelling conventions:
- Python floats are embedded as exact rationals (`ℚ`).
- Python ints are `ℕ` (sizes, counts) or `ℤ` (grid cells, which may be negative).
- Capability accessors (abstract base classes) become plain data structures;
  methods keyed by a name become Lean functions.
- `re` pattern objects are abstracted as boolean matchers `String → Bool`.
- `random.sample` is modelled as an explicit sampling oracle passed to the
  checks that use it, with a validity predicate mirroring its contract.
- `CheckResult.message` and `CheckResult.threshold` are elided: no stage,
  remediation or aggregation logic ever reads them (presentation only).
-/

/-! ## schema.py -/

inductive CheckStatus where
  | PASS
  | FAIL
  | WARNING
  | SKIPPED
deriving DecidableEq, Repr

inductive StageStatus where
  | PASS
  | FAIL
  | SKIPPED
deriving DecidableEq, Repr

inductive OverallStatus where
  | PASS
  | PASS_WITH_FIXES
  | NEEDS_REVIEW
  | FAIL
deriving DecidableEq, Repr

inductive Severity where
  | ERROR
  | WARNING
  | INFO
deriving DecidableEq, Repr

/-- Python `measured_value` / fix `before_value` / `after_value` fields are
dynamically typed (`Any`); this sum type covers the shapes the pipeline
actually produces (counts, fractions, violation listings, dicts of counts). -/
inductive MeasuredValue where
  | count (n : ℕ)
  | rat (q : ℚ)
  | strs (names : List String)
  | worst (n : ℕ) (objName : String)
  | weights (zero_w excess_w unnorm_w : ℕ)
  | hierarchy (roots orphans : ℕ)
  | density (dmin dmax dmean : ℚ) (outliers : ℕ)
  | lightmap (present : Bool) (overlaps : ℕ)
  | fracCount (fraction : ℚ) (samples : ℕ)
  | fracPair (fzero fone : ℚ)
  | normmap (csViol chViol : List String)
  | imgViol (entries : List (String × ℕ × ℕ))
  | depthViol (entries : List (String × ℕ))
  | colorViol (entries : List (String × String × String))
  | namingViol (names : List String)
  | sizeWH (w h : ℕ)
deriving DecidableEq, Repr

structure CheckResult where
  name : String
  status : CheckStatus
  measured_value : MeasuredValue
deriving DecidableEq, Repr

structure FixEntry where
  action : String
  target : String
  before_value : MeasuredValue
  after_value : MeasuredValue
deriving DecidableEq, Repr

structure ReviewFlag where
  issue : String
  severity : Severity
  description : String
deriving DecidableEq, Repr

structure StageResult where
  name : String
  status : StageStatus
  checks : List CheckResult := []
  fixes : List FixEntry := []
  review_flags : List ReviewFlag := []
deriving DecidableEq, Repr

structure PerformanceEstimates where
  triangle_count : ℕ
  draw_call_estimate : ℕ
  vram_estimate_mb : ℚ
  bone_count : ℕ
deriving DecidableEq, Repr

/-! ## report_builder.py — `ReportBuilder._compute_status`

`s.flags` / `s.fixes` in the source are the stage's review-flag and fix lists;
Python list truthiness is non-emptiness. -/

def compute_status (stages : List StageResult) : OverallStatus :=
  if stages.any (fun s => decide (s.status = StageStatus.FAIL)) then
    OverallStatus.FAIL
  else if stages.any (fun s => !s.review_flags.isEmpty) then
    OverallStatus.NEEDS_REVIEW
  else if stages.any (fun s => !s.fixes.isEmpty) then
    OverallStatus.PASS_WITH_FIXES
  else
    OverallStatus.PASS

/-! ## geometry.py

`bmesh` topology snapshot: faces and edges carry numeric ids standing for
Python object identity; loops reference their edge by id; an edge's
`link_faces` embeds the face records.  A well-formed snapshot resolves every
loop's edge id inside its mesh (object references cannot dangle in Python);
the lookup falls back to an empty link list. -/

structure BMLoop where
  edge : ℕ
  vert : ℕ
deriving DecidableEq, Repr

structure BMFace where
  fid : ℕ
  area : ℚ
  loops : List BMLoop
deriving DecidableEq, Repr

structure BMEdge where
  eid : ℕ
  is_manifold : Bool
  link_faces : List BMFace
deriving DecidableEq, Repr

structure BMVert where
  link_faces : List ℕ
deriving DecidableEq, Repr

structure BMesh where
  verts : List BMVert
  edges : List BMEdge
  faces : List BMFace
deriving DecidableEq, Repr

/-- `MeshObject`: name, `triangle_count()` and the bmesh from `bmesh_get()`. -/
structure GeoMeshObject where
  name : String
  triangle_count : ℕ
  bm : BMesh
deriving DecidableEq, Repr

def default_budgets : List (String × ℕ × ℕ) :=
  [("env_prop", 500, 5000), ("hero_prop", 5000, 15000),
   ("character", 15000, 30000), ("vehicle", 10000, 25000)]

structure GeometryConfig where
  triangle_budgets : List (String × ℕ × ℕ) := default_budgets
  category : String := "env_prop"

/-- Python `dict.get(key, default)` over the budget table. -/
def budget_lookup (tbl : List (String × ℕ × ℕ)) (k : String) : Option (ℕ × ℕ) :=
  (tbl.find? (fun e => decide (e.1 = k))).map (·.2)

def check_polycount (objs : List GeoMeshObject) (config : GeometryConfig) : CheckResult :=
  let total := (objs.map (·.triangle_count)).sum
  let budget := (budget_lookup config.triangle_budgets config.category).getD
    ((budget_lookup default_budgets "env_prop").getD (500, 5000))
  if total < budget.1 ∨ total > budget.2 then
    { name := "polycount_budget", status := CheckStatus.FAIL, measured_value := .count total }
  else
    { name := "polycount_budget", status := CheckStatus.PASS, measured_value := .count total }

def check_non_manifold (all_bm : List BMesh) : CheckResult :=
  let count := (all_bm.map (fun bm => bm.edges.countP (fun e => !e.is_manifold))).sum
  { name := "non_manifold",
    status := if count > 0 then CheckStatus.FAIL else CheckStatus.PASS,
    measured_value := .count count }

def degenerate_count (all_bm : List BMesh) : ℕ :=
  (all_bm.map (fun bm => bm.faces.countP (fun f => decide (f.area < 1/1000000)))).sum

def check_degenerate_faces (all_bm : List BMesh) : CheckResult :=
  let count := degenerate_count all_bm
  { name := "degenerate_faces",
    status := if count > 0 then CheckStatus.FAIL else CheckStatus.PASS,
    measured_value := .count count }

/-- First loop of `f` whose edge is the given edge; returns its start vertex. -/
def first_loop_vert (f : BMFace) (e : BMEdge) : Option ℕ :=
  (f.loops.find? (fun l => decide (l.edge = e.eid))).map (·.vert)

/-- The `inconsistent` set of face ids accumulated by `_check_normal_consistency`:
for each edge linked by exactly two faces, if both faces traverse the edge
starting at the same vertex, both face ids are added. -/
def normal_inconsistent_ids (all_bm : List BMesh) : Finset ℕ :=
  all_bm.foldl (fun acc bm =>
    bm.edges.foldl (fun acc e =>
      match e.link_faces with
      | [f1, f2] =>
        match first_loop_vert f1 e, first_loop_vert f2 e with
        | some v1, some v2 => if v1 = v2 then insert f1.fid (insert f2.fid acc) else acc
        | _, _ => acc
      | _ => acc) acc) ∅

def check_normal_consistency (all_bm : List BMesh) : CheckResult :=
  let count := (normal_inconsistent_ids all_bm).card
  { name := "normal_consistency",
    status := if count > 0 then CheckStatus.FAIL else CheckStatus.PASS,
    measured_value := .count count }

def check_loose_geometry (all_bm : List BMesh) : CheckResult :=
  let count := (all_bm.map (fun bm =>
    bm.verts.countP (fun v => decide (v.link_faces.length = 0)) +
    bm.edges.countP (fun e => decide (e.link_faces.length = 0)))).sum
  { name := "loose_geometry",
    status := if count > 0 then CheckStatus.FAIL else CheckStatus.PASS,
    measured_value := .count count }

def find_edge (bm : BMesh) (e : ℕ) : Option BMEdge :=
  bm.edges.find? (fun ed => decide (ed.eid = e))

def loop_edge_link_face_count (bm : BMesh) (l : BMLoop) : ℕ :=
  match find_edge bm l.edge with
  | some ed => ed.link_faces.length
  | none => 0

def check_interior_faces (all_bm : List BMesh) : CheckResult :=
  let count := (all_bm.map (fun bm => bm.faces.countP (fun f =>
    !f.loops.isEmpty && f.loops.all (fun l => decide (loop_edge_link_face_count bm l > 2))))).sum
  { name := "interior_faces",
    status := if count > 0 then CheckStatus.FAIL else CheckStatus.PASS,
    measured_value := .count count }

/-- Stage verdict shared by every Stage-1 engine:
`FAIL if any(c.status == CheckStatus.FAIL for c in checks) else PASS`. -/
def stage_fail_status (checks : List CheckResult) : StageStatus :=
  if checks.any (fun c => decide (c.status = CheckStatus.FAIL)) then
    StageStatus.FAIL
  else
    StageStatus.PASS

def check_geometry (objs : List GeoMeshObject) (config : GeometryConfig) : StageResult :=
  let all_bm := objs.map (·.bm)
  let checks := [check_polycount objs config, check_non_manifold all_bm,
    check_degenerate_faces all_bm, check_normal_consistency all_bm,
    check_loose_geometry all_bm, check_interior_faces all_bm]
  { name := "geometry", status := stage_fail_status checks, checks := checks }

/-! ## uv.py — 2-D geometry helpers -/

abbrev Pt := ℚ × ℚ

abbrev Tri := Pt × Pt × Pt

def cross_2d (o a b : Pt) : ℚ :=
  (a.1 - o.1) * (b.2 - o.2) - (a.2 - o.2) * (b.1 - o.1)

def segments_intersect (a0 a1 b0 b1 : Pt) : Bool :=
  let d1 := cross_2d b0 b1 a0
  let d2 := cross_2d b0 b1 a1
  let d3 := cross_2d a0 a1 b0
  let d4 := cross_2d a0 a1 b1
  ((decide (d1 > 0) && decide (d2 < 0)) || (decide (d1 < 0) && decide (d2 > 0))) &&
    ((decide (d3 > 0) && decide (d4 < 0)) || (decide (d3 < 0) && decide (d4 > 0)))

def point_in_triangle (p t0 t1 t2 : Pt) : Bool :=
  let d0 := cross_2d t0 t1 p
  let d1 := cross_2d t1 t2 p
  let d2 := cross_2d t2 t0 p
  let has_neg := decide (d0 < 0) || decide (d1 < 0) || decide (d2 < 0)
  let has_pos := decide (d0 > 0) || decide (d1 > 0) || decide (d2 > 0)
  !(has_neg && has_pos)

/-- The three directed edges of a triangle, `(v[i], v[(i+1) % 3])`. -/
def tri_edges (t : Tri) : List (Pt × Pt) :=
  [(t.1, t.2.1), (t.2.1, t.2.2), (t.2.2, t.1)]

def triangles_overlap (t1 t2 : Tri) : Bool :=
  ((tri_edges t1).any fun e1 => (tri_edges t2).any fun e2 =>
    segments_intersect e1.1 e1.2 e2.1 e2.2) ||
  point_in_triangle t1.1 t2.1 t2.2.1 t2.2.2 ||
  point_in_triangle t2.1 t1.1 t1.2.1 t1.2.2

def triangle_area_2d (t : Tri) : ℚ :=
  |(t.2.1.1 - t.1.1) * (t.2.2.2 - t.1.2) - (t.2.2.1 - t.1.1) * (t.2.1.2 - t.1.2)| / 2

/-! ## uv.py — spatial hash (`_find_overlapping_pairs`)

The Python `dict` keyed by grid cell is embedded as an association list with
`setdefault` semantics (a fresh key is appended at the end, preserving the
dict's insertion-order iteration); the `checked` set of ordered index pairs is
a plain list with membership test. -/

def triangle_aabb (t : Tri) : ℚ × ℚ × ℚ × ℚ :=
  (min (min t.1.1 t.2.1.1) t.2.2.1, min (min t.1.2 t.2.1.2) t.2.2.2,
   max (max t.1.1 t.2.1.1) t.2.2.1, max (max t.1.2 t.2.1.2) t.2.2.2)

/-- Python `int()` applied to a float: truncation toward zero. -/
def pyInt (q : ℚ) : ℤ :=
  if 0 ≤ q then ⌊q⌋ else ⌈q⌉

def grid_res : ℕ := 16

/-- Cell bounds of a triangle's axis-aligned bounding box on the 16×16 grid:
`cx0 = int(x0 * 16)` etc. -/
def cell_box (t : Tri) : ℤ × ℤ × ℤ × ℤ :=
  let b := triangle_aabb t
  (pyInt (b.1 * grid_res), pyInt (b.2.1 * grid_res),
   pyInt (b.2.2.1 * grid_res), pyInt (b.2.2.2 * grid_res))

/-- Python `range(a, b + 1)` over integers, as an inclusive list. -/
def intRange (a b : ℤ) : List ℤ :=
  (List.range (b + 1 - a).toNat).map (fun k : ℕ => a + (k : ℤ))

/-- The grid cells a triangle is inserted into: the nested
`for cx in range(cx0, cx1 + 1): for cy in range(cy0, cy1 + 1)` loops. -/
def tri_cells (t : Tri) : List (ℤ × ℤ) :=
  let b := cell_box t
  (intRange b.1 b.2.2.1).flatMap (fun cx => (intRange b.2.1 b.2.2.2).map (fun cy => (cx, cy)))

abbrev Grid := List ((ℤ × ℤ) × List ℕ)

/-- `grid.setdefault(cell, []).append(idx)`. -/
def gridInsert : Grid → (ℤ × ℤ) → ℕ → Grid
  | [], c, idx => [(c, [idx])]
  | (c', l) :: rest, c, idx =>
    if c' = c then (c', l ++ [idx]) :: rest else (c', l) :: gridInsert rest c idx

def insert_cells (g : Grid) (idx : ℕ) (cs : List (ℤ × ℤ)) : Grid :=
  cs.foldl (fun g c => gridInsert g c idx) g

def buildGrid (triangles : List Tri) : Grid :=
  triangles.enum.foldl (fun g it => insert_cells g it.1 (tri_cells it.2)) []

/-- Ordered candidate pairs `(min(a,b), max(a,b))` produced by the
`for i in range(n): for j in range(i+1, n)` loops over one cell's indices,
in iteration order. -/
def cellPairs : List ℕ → List (ℕ × ℕ)
  | [] => []
  | a :: rest => (rest.map fun b => (min a b, max a b)) ++ cellPairs rest

def dTri : Tri := ((0, 0), (0, 0), (0, 0))

/-- Whether the candidate pair of triangle indices overlaps. -/
def overlapAt (triangles : List Tri) (p : ℕ × ℕ) : Bool :=
  triangles_overlap (triangles.getD p.1 dTri) (triangles.getD p.2 dTri)

/-- The dedup-and-test loop: `checked` set plus overlap counter, scanning the
candidate pairs of all cells in grid iteration order. -/
def scanPairs (triangles : List Tri) :
    List (ℕ × ℕ) → ℕ → List (ℕ × ℕ) → List (ℕ × ℕ) × ℕ
  | seen, cnt, [] => (seen, cnt)
  | seen, cnt, p :: ps =>
    if p ∈ seen then scanPairs triangles seen cnt ps
    else scanPairs triangles (p :: seen) (cnt + if overlapAt triangles p then 1 else 0) ps

def find_overlapping_pairs (triangles : List Tri) : ℕ :=
  if triangles.length < 2 then 0
  else
    let grid := buildGrid triangles
    (scanPairs triangles [] 0 (grid.flatMap (fun e => cellPairs e.2))).2

/-! ## uv.py — checks -/

structure UVConfig where
  texel_density_target_px_per_m : ℚ × ℚ := (512, 1024)
  require_lightmap_uv2 : Bool := false
  uv_layer_name : String := "UVMap"
  lightmap_layer_name : String := "UVMap2"

/-- `UVMeshObject`: layer-keyed accessors become functions of the layer name. -/
structure UVMeshObject where
  name : String
  uv_layer_names : List String
  uv_loops : String → List Pt
  uv_triangles : String → List Tri
  world_surface_area : ℚ

def check_missing_uvs (objects : List UVMeshObject) : CheckResult :=
  let count := objects.countP (fun obj => decide (obj.uv_layer_names.length = 0))
  { name := "missing_uvs",
    status := if count > 0 then CheckStatus.FAIL else CheckStatus.PASS,
    measured_value := .count count }

def check_uv_bounds (objects : List UVMeshObject) (config : UVConfig) : CheckResult :=
  let count := (objects.map (fun obj =>
    if config.uv_layer_name ∈ obj.uv_layer_names then
      (obj.uv_loops config.uv_layer_name).countP
        (fun uv => !(decide ((0:ℚ) ≤ uv.1) && decide (uv.1 ≤ 1) &&
                     decide ((0:ℚ) ≤ uv.2) && decide (uv.2 ≤ 1)))
    else 0)).sum
  { name := "uv_bounds",
    status := if count > 0 then CheckStatus.FAIL else CheckStatus.PASS,
    measured_value := .count count }

def check_uv_overlap (objects : List UVMeshObject) (config : UVConfig) : CheckResult :=
  let all_tris := objects.flatMap (fun obj =>
    if config.uv_layer_name ∈ obj.uv_layer_names then
      obj.uv_triangles config.uv_layer_name
    else [])
  let overlap_count := find_overlapping_pairs all_tris
  { name := "uv_overlap",
    status := if overlap_count > 0 then CheckStatus.FAIL else CheckStatus.PASS,
    measured_value := .count overlap_count }

def uv_densities (objects : List UVMeshObject) (config : UVConfig) : List ℚ :=
  objects.flatMap (fun obj =>
    if config.uv_layer_name ∈ obj.uv_layer_names then
      let tris := obj.uv_triangles config.uv_layer_name
      let uv_area := (tris.map triangle_area_2d).sum
      let world_area := obj.world_surface_area
      if world_area > 0 ∧ uv_area > 0 then [uv_area / world_area] else []
    else [])

def rat_list_min (l : List ℚ) : ℚ := l.foldr min (l.headD 0)

def rat_list_max (l : List ℚ) : ℚ := l.foldr max (l.headD 0)

def check_texel_density (objects : List UVMeshObject) (config : UVConfig) : CheckResult :=
  let min_target := config.texel_density_target_px_per_m.1
  let max_target := config.texel_density_target_px_per_m.2
  let densities := uv_densities objects config
  if densities.isEmpty then
    { name := "texel_density", status := CheckStatus.SKIPPED,
      measured_value := .density 0 0 0 0 }
  else
    let d_min := rat_list_min densities
    let d_max := rat_list_max densities
    let d_mean := densities.sum / densities.length
    let outlier_count := densities.countP
      (fun d => decide (d < min_target) || decide (d > max_target))
    { name := "texel_density",
      status := if outlier_count > 0 then CheckStatus.WARNING else CheckStatus.PASS,
      measured_value := .density d_min d_max d_mean outlier_count }

def check_lightmap_uv2 (objects : List UVMeshObject) (config : UVConfig) : CheckResult :=
  if !config.require_lightmap_uv2 then
    { name := "lightmap_uv2", status := CheckStatus.SKIPPED,
      measured_value := .lightmap false 0 }
  else
    let missing := objects.filter (fun obj =>
      config.lightmap_layer_name ∉ obj.uv_layer_names)
    if !missing.isEmpty then
      { name := "lightmap_uv2", status := CheckStatus.FAIL,
        measured_value := .lightmap false 0 }
    else
      let all_tris := objects.flatMap (fun obj => obj.uv_triangles config.lightmap_layer_name)
      let overlap_count := find_overlapping_pairs all_tris
      { name := "lightmap_uv2",
        status := if overlap_count > 0 then CheckStatus.FAIL else CheckStatus.PASS,
        measured_value := .lightmap true overlap_count }

def check_uvs (objects : List UVMeshObject) (config : UVConfig) : StageResult :=
  let checks := [check_missing_uvs objects, check_uv_bounds objects config,
    check_uv_overlap objects config, check_texel_density objects config,
    check_lightmap_uv2 objects config]
  { name := "uv", status := stage_fail_status checks, checks := checks }

/-! ## texture.py -/

structure TextureConfig where
  max_resolution_standard : ℕ := 2048
  max_resolution_hero : ℕ := 4096
  is_hero_asset : Bool := false
  max_textures_per_material : ℕ := 8

structure ImageTextureNode where
  socket_name : String
  image_name : String
  filepath_missing : Bool
deriving DecidableEq, Repr

structure TextureMaterial where
  name : String
  image_texture_nodes : List ImageTextureNode
deriving DecidableEq, Repr

structure TextureImage where
  name : String
  size : ℕ × ℕ
  depth : ℕ
  colorspace_name : String
deriving DecidableEq, Repr

def srgb_keywords : List String :=
  ["albedo", "diffuse", "color", "colour", "basecolor", "base_color"]

def linear_keywords : List String :=
  ["normal", "rough", "roughness", "metal", "metallic",
   "ao", "ambient_occlusion", "specular", "height", "bump", "displacement"]

/-- Python `kw in text` substring test on lower-cased strings. -/
def str_contains (text kw : String) : Bool :=
  decide (kw.toList <:+: text.toList)

def infer_expected_colorspace (socket_name image_name : String) : Option String :=
  ([socket_name.toLower, image_name.toLower].findSome? fun text =>
    if srgb_keywords.any (fun kw => str_contains text kw) then some "sRGB"
    else if linear_keywords.any (fun kw => str_contains text kw) then some "Non-Color"
    else none)

def check_missing_textures (materials : List TextureMaterial) : CheckResult :=
  let broken := (materials.map (fun mat =>
    mat.image_texture_nodes.countP (·.filepath_missing))).sum
  { name := "missing_textures",
    status := if broken > 0 then CheckStatus.FAIL else CheckStatus.PASS,
    measured_value := .count broken }

def is_power_of_two (n : ℕ) : Bool :=
  decide (n > 0) && decide (n &&& (n - 1) = 0)

def check_resolution_limit (images : List TextureImage) (config : TextureConfig) : CheckResult :=
  let limit := if config.is_hero_asset then config.max_resolution_hero
    else config.max_resolution_standard
  let violations := (images.filter (fun img =>
    decide (img.size.1 > limit) || decide (img.size.2 > limit))).map
    (fun img => (img.name, img.size.1, img.size.2))
  { name := "resolution_limit",
    status := if !violations.isEmpty then CheckStatus.FAIL else CheckStatus.PASS,
    measured_value := .imgViol violations }

def check_power_of_two (images : List TextureImage) : CheckResult :=
  let violations := (images.filter (fun img =>
    !(is_power_of_two img.size.1 && is_power_of_two img.size.2))).map
    (fun img => (img.name, img.size.1, img.size.2))
  { name := "power_of_two",
    status := if !violations.isEmpty then CheckStatus.FAIL else CheckStatus.PASS,
    measured_value := .imgViol violations }

/-- The running worst-material loop of `_check_texture_count`. -/
def worst_texture_count (materials : List TextureMaterial) : ℕ × String :=
  materials.foldl (fun acc mat =>
    let count := mat.image_texture_nodes.length
    if count > acc.1 then (count, mat.name) else acc) (0, "")

def check_texture_count (materials : List TextureMaterial) (config : TextureConfig) : CheckResult :=
  let worst := worst_texture_count materials
  { name := "texture_count",
    status := if worst.1 > config.max_textures_per_material then CheckStatus.FAIL
      else CheckStatus.PASS,
    measured_value := .worst worst.1 worst.2 }

def standard_depths : List ℕ := [24, 32]

def check_channel_depth (images : List TextureImage) : CheckResult :=
  let flagged := (images.filter (fun img => decide (img.depth ∉ standard_depths))).map
    (fun img => (img.name, img.depth))
  { name := "channel_depth",
    status := if !flagged.isEmpty then CheckStatus.WARNING else CheckStatus.PASS,
    measured_value := .depthViol flagged }

def image_by_name (images : List TextureImage) (n : String) : Option TextureImage :=
  images.find? (fun img => decide (img.name = n))

def colorspace_violations (materials : List TextureMaterial)
    (images : List TextureImage) : List (String × String × String) :=
  materials.flatMap (fun mat => mat.image_texture_nodes.flatMap (fun node =>
    match infer_expected_colorspace node.socket_name node.image_name with
    | none => []
    | some expected =>
      match image_by_name images node.image_name with
      | none => []
      | some img =>
        let actual := img.colorspace_name
        if expected = "Non-Color" then
          if actual ∉ ["Non-Color", "Linear"] then [(node.image_name, "Non-Color", actual)]
          else []
        else
          if actual ≠ expected then [(node.image_name, expected, actual)] else []))

def check_color_space (materials : List TextureMaterial)
    (images : List TextureImage) : CheckResult :=
  let violations := colorspace_violations materials images
  { name := "color_space",
    status := if !violations.isEmpty then CheckStatus.WARNING else CheckStatus.PASS,
    measured_value := .colorViol violations }

def check_textures (materials : List TextureMaterial) (images : List TextureImage)
    (config : TextureConfig) : StageResult :=
  let checks := [check_missing_textures materials,
    check_resolution_limit images config, check_power_of_two images,
    check_texture_count materials config, check_channel_depth images,
    check_color_space materials images]
  { name := "texture", status := stage_fail_status checks, checks := checks }

/-! ## armature.py -/

structure ArmatureConfig where
  max_bones : ℕ := 75
  max_influences_per_vertex : ℕ := 4
  bone_naming_pattern : Option (String → Bool) := none
  categories_requiring_armature : List String := ["character"]
  category : String := "env_prop"

structure ArmatureBone where
  name : String
  parent : Option String
deriving DecidableEq, Repr

structure ArmatureObject where
  name : String
  bones : List ArmatureBone
deriving DecidableEq, Repr

/-- `per_vertex_weights()[i]` is the list of non-zero weights of vertex `i`. -/
structure SkinnedMesh where
  name : String
  per_vertex_weights : List (List ℚ)
deriving DecidableEq, Repr

def check_armature_present (armatures : List ArmatureObject)
    (config : ArmatureConfig) : CheckResult :=
  let present := armatures.length > 0
  let required := config.category ∈ config.categories_requiring_armature
  if ¬present ∧ required then
    { name := "armature_present", status := CheckStatus.FAIL, measured_value := .count 0 }
  else
    { name := "armature_present", status := CheckStatus.PASS,
      measured_value := .count armatures.length }

def check_bone_count (armatures : List ArmatureObject)
    (config : ArmatureConfig) : CheckResult :=
  let total := (armatures.map (fun arm => arm.bones.length)).sum
  if total > config.max_bones then
    { name := "bone_count", status := CheckStatus.FAIL, measured_value := .count total }
  else
    { name := "bone_count", status := CheckStatus.PASS, measured_value := .count total }

def check_bone_naming (armatures : List ArmatureObject)
    (config : ArmatureConfig) : CheckResult :=
  match config.bone_naming_pattern with
  | none =>
    { name := "bone_naming", status := CheckStatus.SKIPPED, measured_value := .namingViol [] }
  | some pattern =>
    let violations := armatures.flatMap (fun arm =>
      (arm.bones.filter (fun bone => !pattern bone.name)).map (·.name))
    { name := "bone_naming",
      status := if violations.length > 0 then CheckStatus.FAIL else CheckStatus.PASS,
      measured_value := .namingViol violations }

/-- The three per-vertex classification counters of `_check_vertex_weights`,
accumulated over all skinned meshes.  Total weight below `1e-6` counts the
vertex as zero-weight; otherwise the excess-influence test and the
normalization test are two independent `if` statements. -/
def vertex_weight_counts (skinned_meshes : List SkinnedMesh)
    (config : ArmatureConfig) : ℕ × ℕ × ℕ :=
  skinned_meshes.foldl (fun acc mesh =>
    mesh.per_vertex_weights.foldl (fun acc weights =>
      let total := weights.sum
      if total < 1/1000000 then
        (acc.1 + 1, acc.2.1, acc.2.2)
      else
        (acc.1,
         acc.2.1 + (if weights.length > config.max_influences_per_vertex then 1 else 0),
         acc.2.2 + (if |total - 1| > 1/1000 then 1 else 0))) acc) (0, 0, 0)

def check_vertex_weights (skinned_meshes : List SkinnedMesh)
    (config : ArmatureConfig) : CheckResult :=
  let counts := vertex_weight_counts skinned_meshes config
  let has_violation := counts.1 > 0 ∨ counts.2.1 > 0 ∨ counts.2.2 > 0
  { name := "vertex_weights",
    status := if has_violation then CheckStatus.FAIL else CheckStatus.PASS,
    measured_value := .weights counts.1 counts.2.1 counts.2.2 }

/-- Total root count and orphan count of `_check_bone_hierarchy`. -/
def bone_hierarchy_counts (armatures : List ArmatureObject) : ℕ × ℕ :=
  armatures.foldl (fun acc arm =>
    let root_count := (arm.bones.filter (fun b => b.parent = none)).length
    (acc.1 + root_count, acc.2 + (if root_count > 1 then root_count - 1 else 0))) (0, 0)

def check_bone_hierarchy (armatures : List ArmatureObject) : CheckResult :=
  let counts := bone_hierarchy_counts armatures
  { name := "bone_hierarchy",
    status := if counts.2 > 0 then CheckStatus.FAIL else CheckStatus.PASS,
    measured_value := .hierarchy counts.1 counts.2 }

def check_armature (armatures : List ArmatureObject)
    (skinned_meshes : List SkinnedMesh) (config : ArmatureConfig) : StageResult :=
  if armatures.isEmpty ∧ config.category ∉ config.categories_requiring_armature then
    { name := "armature", status := StageStatus.SKIPPED,
      checks := [({ name := "armature_present", status := CheckStatus.SKIPPED,
                    measured_value := .count 0 } : CheckResult)] }
  else
    let checks := [check_armature_present armatures config,
      check_bone_count armatures config, check_bone_naming armatures config,
      check_vertex_weights skinned_meshes config, check_bone_hierarchy armatures]
    { name := "armature", status := stage_fail_status checks, checks := checks }

/-! ## pbr.py

`random.sample(range(total), k)` and `random.sample(seq, k)` are embedded as
an explicit sampling oracle `Sampler`: given the population size and the draw
size it returns the chosen indices.  `valid_sampler` is `random.sample`'s
contract: a draw of `k` distinct indices below the population size. -/

abbrev Sampler := ℕ → ℕ → List ℕ

def valid_sampler (s : Sampler) : Prop :=
  ∀ n k, k ≤ n → (s n k).length = k ∧ (s n k).Nodup ∧ ∀ i ∈ s n k, i < n

structure PBRConfig where
  max_material_slots : ℕ := 3
  albedo_min_srgb : ℤ := 30
  albedo_max_srgb : ℤ := 240
  albedo_sample_count : ℕ := 1000
  metalness_binary_threshold : ℚ := 1/10

structure NormalMapData where
  image_name : String
  colorspace : String
  pixels : Option (List ℚ)
deriving DecidableEq, Repr

structure PBRMaterial where
  name : String
  has_nodes : Bool
  uses_principled_bsdf : Bool
  uses_spec_gloss : Bool
  orphan_image_node_count : ℕ
  has_node_cycles : Bool
  albedo_pixels : Option (List ℚ)
  metalness_pixels : Option (List ℚ)
  roughness_pixels : Option (List ℚ)
  normal_map_data : List NormalMapData
deriving DecidableEq, Repr

structure PBRMeshObject where
  name : String
  material_slot_count : ℕ
deriving DecidableEq, Repr

/-- Python truthiness of `mat.xxx_pixels()`: `None` and `[]` are both falsy. -/
def pix_list (p : Option (List ℚ)) : List ℚ := p.getD []

def rgb_samples (pixels : List ℚ) (max_samples : ℕ) (sample : Sampler) :
    List (ℚ × ℚ × ℚ) :=
  let total := pixels.length / 4
  if total = 0 then []
  else
    let indices := if total > max_samples then sample total max_samples
      else List.range total
    indices.map (fun i =>
      (pixels.getD (i * 4) 0, pixels.getD (i * 4 + 1) 0, pixels.getD (i * 4 + 2) 0))

def r_samples (pixels : List ℚ) (max_samples : ℕ) (sample : Sampler) : List ℚ :=
  let total := pixels.length / 4
  if total = 0 then []
  else if total > max_samples then
    (sample total max_samples).map (fun i => pixels.getD (i * 4) 0)
  else
    (List.range total).map (fun i => pixels.getD (i * 4) 0)

/-- `random.sample(seq, k)` on a list of values, via the index oracle. -/
def sample_list {α : Type} (l : List α) (d : α) (k : ℕ) (sample : Sampler) : List α :=
  (sample l.length k).map (fun i => l.getD i d)

/-- Python 3 `round()`: round half to even. -/
def pyRound (q : ℚ) : ℤ :=
  let f := ⌊q⌋
  let frac := q - f
  if frac < 1/2 then f
  else if 1/2 < frac then f + 1
  else if Even f then f else f + 1

def check_pbr_workflow (materials : List PBRMaterial) : CheckResult :=
  let non_compliant := (materials.filter (fun mat =>
    !mat.uses_principled_bsdf || mat.uses_spec_gloss)).map (·.name)
  { name := "pbr_workflow",
    status := if !non_compliant.isEmpty then CheckStatus.FAIL else CheckStatus.PASS,
    measured_value := .strs non_compliant }

/-- The running worst-object loop of `_check_material_slots`. -/
def worst_material_slots (mesh_objects : List PBRMeshObject) : ℕ × String :=
  mesh_objects.foldl (fun acc obj =>
    if obj.material_slot_count > acc.1 then (obj.material_slot_count, obj.name) else acc)
    (0, "")

def check_material_slots (mesh_objects : List PBRMeshObject)
    (config : PBRConfig) : CheckResult :=
  let worst := worst_material_slots mesh_objects
  { name := "material_slots",
    status := if worst.1 > config.max_material_slots then CheckStatus.FAIL
      else CheckStatus.PASS,
    measured_value := .worst worst.1 worst.2 }

def albedo_all_rgb (materials : List PBRMaterial) (max_samples : ℕ)
    (sample : Sampler) : List (ℚ × ℚ × ℚ) :=
  materials.flatMap (fun mat =>
    let pix := pix_list mat.albedo_pixels
    if pix.isEmpty then [] else rgb_samples pix max_samples sample)

def albedo_out_of_range (rgb : ℚ × ℚ × ℚ) (config : PBRConfig) : Bool :=
  decide (pyRound (rgb.1 * 255) < config.albedo_min_srgb) ||
  decide (pyRound (rgb.1 * 255) > config.albedo_max_srgb) ||
  decide (pyRound (rgb.2.1 * 255) < config.albedo_min_srgb) ||
  decide (pyRound (rgb.2.1 * 255) > config.albedo_max_srgb) ||
  decide (pyRound (rgb.2.2 * 255) < config.albedo_min_srgb) ||
  decide (pyRound (rgb.2.2 * 255) > config.albedo_max_srgb)

def check_albedo_range (materials : List PBRMaterial) (config : PBRConfig)
    (sample : Sampler) : CheckResult :=
  let all_rgb := albedo_all_rgb materials config.albedo_sample_count sample
  if all_rgb.isEmpty then
    { name := "albedo_range", status := CheckStatus.PASS,
      measured_value := .fracCount 0 0 }
  else
    let all_rgb := if all_rgb.length > config.albedo_sample_count then
        sample_list all_rgb (0, 0, 0) config.albedo_sample_count sample
      else all_rgb
    let out_of_range := all_rgb.countP (fun rgb => albedo_out_of_range rgb config)
    let fraction := (out_of_range : ℚ) / all_rgb.length
    { name := "albedo_range",
      status := if fraction > 5/100 then CheckStatus.WARNING else CheckStatus.PASS,
      measured_value := .fracCount fraction all_rgb.length }

def metalness_all_values (materials : List PBRMaterial) (max_samples : ℕ)
    (sample : Sampler) : List ℚ :=
  materials.flatMap (fun mat =>
    let pix := pix_list mat.metalness_pixels
    if pix.isEmpty then [] else r_samples pix max_samples sample)

def check_metalness_binary (materials : List PBRMaterial) (config : PBRConfig)
    (sample : Sampler) : CheckResult :=
  let all_values := metalness_all_values materials config.albedo_sample_count sample
  if all_values.isEmpty then
    { name := "metalness_binary", status := CheckStatus.PASS,
      measured_value := .rat 0 }
  else
    let all_values := if all_values.length > config.albedo_sample_count then
        sample_list all_values 0 config.albedo_sample_count sample
      else all_values
    let t := config.metalness_binary_threshold
    let gradient := all_values.countP (fun v => decide (t < v) && decide (v < 1 - t))
    let fraction := (gradient : ℚ) / all_values.length
    { name := "metalness_binary",
      status := if fraction > 10/100 then CheckStatus.WARNING else CheckStatus.PASS,
      measured_value := .rat fraction }

def near_zero : ℚ := 1/1000000

def near_one : ℚ := 1 - 1/1000000

def roughness_all_values (materials : List PBRMaterial) (max_samples : ℕ)
    (sample : Sampler) : List ℚ :=
  materials.flatMap (fun mat =>
    let pix := pix_list mat.roughness_pixels
    if pix.isEmpty then [] else r_samples pix max_samples sample)

def check_roughness_range (materials : List PBRMaterial) (config : PBRConfig)
    (sample : Sampler) : CheckResult :=
  let all_values := roughness_all_values materials config.albedo_sample_count sample
  if all_values.isEmpty then
    { name := "roughness_range", status := CheckStatus.PASS,
      measured_value := .fracPair 0 0 }
  else
    let all_values := if all_values.length > config.albedo_sample_count then
        sample_list all_values 0 config.albedo_sample_count sample
      else all_values
    let total := all_values.length
    let pure_zero := all_values.countP (fun v => decide (v < near_zero))
    let pure_one := all_values.countP (fun v => decide (v > near_one))
    let frac_zero := (pure_zero : ℚ) / total
    let frac_one := (pure_one : ℚ) / total
    { name := "roughness_range",
      status := if frac_zero > 1/2 ∨ frac_one > 1/2 then CheckStatus.WARNING
        else CheckStatus.PASS,
      measured_value := .fracPair frac_zero frac_one }

/-- Colorspace-violation and channel-violation image-name lists accumulated by
`_check_normal_map`. -/
def normal_map_violations (materials : List PBRMaterial) : List String × List String :=
  materials.foldl (fun acc mat =>
    mat.normal_map_data.foldl (fun acc nm =>
      let cs := if nm.colorspace ≠ "Non-Color" then acc.1 ++ [nm.image_name] else acc.1
      let ch := match nm.pixels with
        | some px =>
          if px.length ≥ 4 then
            let total := px.length / 4
            let mean_r := ((List.range total).map (fun i => px.getD (i * 4) 0)).sum / total
            let mean_g := ((List.range total).map (fun i => px.getD (i * 4 + 1) 0)).sum / total
            let mean_b := ((List.range total).map (fun i => px.getD (i * 4 + 2) 0)).sum / total
            if ¬(mean_b > mean_r ∧ mean_b > mean_g) then acc.2 ++ [nm.image_name] else acc.2
          else acc.2
        | none => acc.2
      (cs, ch)) acc) ([], [])

def check_normal_map (materials : List PBRMaterial) : CheckResult :=
  let v := normal_map_violations materials
  let failed := ¬v.1.isEmpty ∨ ¬v.2.isEmpty
  { name := "normal_map",
    status := if failed then CheckStatus.FAIL else CheckStatus.PASS,
    measured_value := .normmap v.1 v.2 }

/-- Node-graph issues of `_check_node_graph`; each issue is represented by the
offending material's name (the f-string issue text is elided). -/
def node_graph_issues (materials : List PBRMaterial) : List String :=
  materials.flatMap (fun mat =>
    if !mat.has_nodes then [mat.name]
    else if mat.uses_principled_bsdf then
      (if mat.orphan_image_node_count > 0 then [mat.name] else []) ++
      (if mat.has_node_cycles then [mat.name] else [])
    else [])

def check_node_graph (materials : List PBRMaterial) : CheckResult :=
  let issues := node_graph_issues materials
  { name := "node_graph",
    status := if !issues.isEmpty then CheckStatus.WARNING else CheckStatus.PASS,
    measured_value := .strs issues }

def check_pbr (mesh_objects : List PBRMeshObject) (materials : List PBRMaterial)
    (config : PBRConfig) (sample : Sampler) : StageResult :=
  let checks := [check_pbr_workflow materials,
    check_material_slots mesh_objects config,
    check_albedo_range materials config sample,
    check_metalness_binary materials config sample,
    check_roughness_range materials config sample,
    check_normal_map materials,
    check_node_graph materials]
  { name := "pbr", status := stage_fail_status checks, checks := checks }

/-! ## scene.py -/

structure SceneConfig where
  object_naming_pattern : String → Bool
  require_lod : Bool
  require_collision : Bool
  lod_suffix_pattern : String → Bool
  collision_suffix_pattern : String → Bool

structure SceneMeshObject where
  name : String
  triangle_count : ℕ
  material_slot_count : ℕ
deriving DecidableEq, Repr

structure SceneArmatureObject where
  name : String
  bone_count : ℕ
deriving DecidableEq, Repr

structure SceneImage where
  width : ℕ
  height : ℕ
  channels : ℕ
  bit_depth : ℕ
deriving DecidableEq, Repr

def check_naming_conventions (mesh_objects : List SceneMeshObject)
    (config : SceneConfig) : CheckResult :=
  let violations := (mesh_objects.filter (fun obj =>
    !config.object_naming_pattern obj.name)).map (·.name)
  { name := "naming_conventions",
    status := if violations.length > 0 then CheckStatus.WARNING else CheckStatus.PASS,
    measured_value := .namingViol violations }

def check_orphan_data (orphan_counts : List (String × ℕ)) : CheckResult :=
  let total := (orphan_counts.map (·.2)).sum
  { name := "orphan_data",
    status := if total > 0 then CheckStatus.WARNING else CheckStatus.PASS,
    measured_value := .count total }

def check_lod_presence (mesh_objects : List SceneMeshObject)
    (config : SceneConfig) : CheckResult :=
  if !config.require_lod then
    { name := "lod_presence", status := CheckStatus.SKIPPED, measured_value := .count 0 }
  else
    let count := mesh_objects.countP (fun obj => config.lod_suffix_pattern obj.name)
    if count = 0 then
      { name := "lod_presence", status := CheckStatus.FAIL, measured_value := .count 0 }
    else
      { name := "lod_presence", status := CheckStatus.PASS, measured_value := .count count }

def check_collision_presence (mesh_objects : List SceneMeshObject)
    (config : SceneConfig) : CheckResult :=
  if !config.require_collision then
    { name := "collision_presence", status := CheckStatus.SKIPPED,
      measured_value := .count 0 }
  else
    let count := mesh_objects.countP (fun obj => config.collision_suffix_pattern obj.name)
    if count = 0 then
      { name := "collision_presence", status := CheckStatus.FAIL,
        measured_value := .count 0 }
    else
      { name := "collision_presence", status := CheckStatus.PASS,
        measured_value := .count count }

def mip_multiplier : ℚ := 4/3

def compute_performance (mesh_objects : List SceneMeshObject)
    (armature_objects : List SceneArmatureObject)
    (unique_images : List SceneImage) : PerformanceEstimates :=
  { triangle_count := (mesh_objects.map (·.triangle_count)).sum,
    draw_call_estimate := (mesh_objects.map (·.material_slot_count)).sum,
    vram_estimate_mb := (unique_images.map (fun img =>
      ((img.width * img.height * img.channels * img.bit_depth : ℚ) / 8)
        / 1024 / 1024 * mip_multiplier)).sum,
    bone_count := (armature_objects.map (·.bone_count)).sum }

def check_scene (mesh_objects : List SceneMeshObject)
    (armature_objects : List SceneArmatureObject)
    (unique_images : List SceneImage) (orphan_counts : List (String × ℕ))
    (config : SceneConfig) : StageResult × PerformanceEstimates :=
  let checks := [check_naming_conventions mesh_objects config,
    check_orphan_data orphan_counts,
    check_lod_presence mesh_objects config,
    check_collision_presence mesh_objects config]
  ({ name := "scene", status := stage_fail_status checks, checks := checks },
   compute_performance mesh_objects armature_objects unique_images)

/-! ## remediate.py

The mutation entry points (`recalculate_normals`, `scale`,
`limit_bone_weights`) act on the external authoring tool; the context records
the data the decision logic reads back: current vertex counts,
`merge_by_distance`'s post-merge count as a function of the threshold, image
sizes, and per-mesh maximum influence counts. -/

structure RemediationConfig where
  merge_distance : ℚ := 1/10000
  max_bone_influences : ℕ := 4
  max_texture_resolution : ℕ := 2048
  hero_asset : Bool := false

structure RemediationMeshObject where
  name : String
  vertex_count : ℕ
  merge_result : ℚ → ℕ

structure RemediationImage where
  name : String
  size : ℕ × ℕ
deriving DecidableEq, Repr

structure RemediationSkinnedMesh where
  name : String
  max_influences : ℕ
deriving DecidableEq, Repr

structure RemediationContext where
  mesh_objects : List RemediationMeshObject
  images : List RemediationImage
  skinned_meshes : List RemediationSkinnedMesh

/-- `_find_check`: first matching check; keeps scanning later stages if a
stage with the right name lacks the check. -/
def find_check : List StageResult → String → String → Option CheckResult
  | [], _, _ => none
  | st :: rest, sn, cn =>
    if st.name = sn then
      match st.checks.find? (fun c => decide (c.name = cn)) with
      | some c => some c
      | none => find_check rest sn cn
    else find_check rest sn cn

/-- The `while pot * 2 <= n: pot *= 2` loop; `fuel` bounds the number of
iterations (the doubling `pot` exceeds `n` after at most `n` steps, so fuel
`n` never runs out when started from `pot = 1`). -/
def largest_pot_loop (n : ℕ) : ℕ → ℕ → ℕ
  | pot, 0 => pot
  | pot, fuel + 1 => if pot * 2 ≤ n then largest_pot_loop n (pot * 2) fuel else pot

/-- `_largest_pot`: largest power of two that is ≤ n (minimum 1). -/
def largest_pot (n : ℤ) : ℕ :=
  if n ≤ 0 then 1 else largest_pot_loop n.toNat 1 n.toNat

/-- `_compute_new_size`: scale the largest dimension to the largest PoT ≤
limit, scale the other proportionally, round each down to its own PoT. -/
def compute_new_size (w h : ℕ) (limit : ℕ) : ℕ × ℕ :=
  let max_dim := max w h
  let target := largest_pot limit
  let scale : ℚ := (target : ℚ) / (max_dim : ℚ)
  (largest_pot (pyInt (w * scale)), largest_pot (pyInt (h * scale)))

/-- Per-image behaviour of Fix 3 in `run_remediation`: an image is rescaled
via `_compute_new_size` only when a dimension exceeds the limit, otherwise it
is left untouched. -/
def resize_image (limit : ℕ) (wh : ℕ × ℕ) : ℕ × ℕ :=
  if wh.1 > limit ∨ wh.2 > limit then compute_new_size wh.1 wh.2 limit else wh

def review_rules : List (String × String × CheckStatus × Severity × String) :=
  [("uv", "uv_overlap", CheckStatus.FAIL, Severity.WARNING,
    "UV islands overlap; may be intentional"),
   ("pbr", "albedo_range", CheckStatus.WARNING, Severity.WARNING,
    "Albedo values outside PBR range; may be stylistic"),
   ("pbr", "metalness_binary", CheckStatus.WARNING, Severity.WARNING,
    "Metalness gradient detected; verify intent"),
   ("pbr", "roughness_range", CheckStatus.WARNING, Severity.WARNING,
    "Extreme roughness values; verify intent"),
   ("geometry", "non_manifold", CheckStatus.FAIL, Severity.ERROR,
    "Non-manifold geometry; requires manual retopology"),
   ("geometry", "interior_faces", CheckStatus.FAIL, Severity.ERROR,
    "Interior faces; requires manual removal"),
   ("uv", "texel_density", CheckStatus.WARNING, Severity.WARNING,
    "Texel density outliers; requires artistic judgment"),
   ("scene", "lod_presence", CheckStatus.FAIL, Severity.WARNING,
    "LODs missing; requires artist to create")]

def collect_review_flags (stage1_results : List StageResult) : List ReviewFlag :=
  (review_rules.flatMap (fun rule =>
    match rule with
    | (stage_name, check_name, trigger_status, severity, description) =>
      match find_check stage1_results stage_name check_name with
      | some check =>
        if check.status = trigger_status then
          [{ issue := stage_name ++ ":" ++ check_name, severity := severity,
             description := description }]
        else []
      | none => [])) ++
  (match find_check stage1_results "geometry" "polycount_budget" with
   | some check =>
     if check.status = CheckStatus.FAIL then
       [{ issue := "geometry:polycount_budget", severity := Severity.ERROR,
          description := "Polycount violation; requires manual retopology or LOD" }]
     else []
   | none => [])

def run_remediation (ctx : RemediationContext) (stage1_results : List StageResult)
    (config : RemediationConfig) : StageResult :=
  let fixes1 :=
    match find_check stage1_results "geometry" "normal_consistency" with
    | some check =>
      if check.status = CheckStatus.FAIL then
        ctx.mesh_objects.map (fun obj =>
          ({ action := "recalculate_normals", target := obj.name,
             before_value := check.measured_value, after_value := .count 0 } : FixEntry))
      else []
    | none => []
  let degenerate_check := find_check stage1_results "geometry" "degenerate_faces"
  let loose_check := find_check stage1_results "geometry" "loose_geometry"
  let needs_merge :=
    (degenerate_check.map (fun c => decide (c.status = CheckStatus.FAIL))).getD false ||
    (loose_check.map (fun c => decide (c.status = CheckStatus.FAIL))).getD false
  let fixes2 :=
    if needs_merge then
      ctx.mesh_objects.map (fun obj =>
        ({ action := "merge_by_distance", target := obj.name,
           before_value := .count obj.vertex_count,
           after_value := .count (obj.merge_result config.merge_distance) } : FixEntry))
    else []
  let fixes3 :=
    match find_check stage1_results "texture" "resolution_limit" with
    | some check =>
      if check.status = CheckStatus.FAIL then
        let limit := if config.hero_asset then 4096 else config.max_texture_resolution
        ctx.images.flatMap (fun img =>
          if img.size.1 > limit ∨ img.size.2 > limit then
            let ns := compute_new_size img.size.1 img.size.2 limit
            [({ action := "resize_textures", target := img.name,
                before_value := .sizeWH img.size.1 img.size.2,
                after_value := .sizeWH ns.1 ns.2 } : FixEntry)]
          else [])
      else []
    | none => []
  let fixes4 :=
    match find_check stage1_results "armature" "vertex_weights" with
    | some check =>
      if check.status = CheckStatus.FAIL then
        let before_max := (ctx.skinned_meshes.map (·.max_influences)).foldr max 0
        [({ action := "limit_bone_weights", target := "scene",
            before_value := .count before_max,
            after_value := .count config.max_bone_influences } : FixEntry)]
      else []
    | none => []
  let review_flags := collect_review_flags stage1_results
  { name := "remediation", status := StageStatus.PASS,
    fixes := fixes1 ++ fixes2 ++ fixes3 ++ fixes4, review_flags := review_flags }

/-! ## Statement-side views and concrete instances -/

/-- All faces of all meshes, for stating whole-scene face properties. -/
def all_faces (all_bm : List BMesh) : List BMFace := all_bm.flatMap (·.faces)

/-- All per-vertex weight lists across all skinned meshes. -/
def all_vertex_weights (meshes : List SkinnedMesh) : List (List ℚ) :=
  meshes.flatMap (·.per_vertex_weights)

/-- Total number of skinned vertices. -/
def total_vertex_count (meshes : List SkinnedMesh) : ℕ :=
  (meshes.map (fun m => m.per_vertex_weights.length)).sum

/-- Zero-weight classification of `_check_vertex_weights`: total weight below
the 1e-6 cutoff. -/
def zero_weight_p (ws : List ℚ) : Bool := decide (ws.sum < 1/1000000)

/-- Excess-influence classification: non-zero total and more influences than
the configured maximum. -/
def excess_influence_p (config : ArmatureConfig) (ws : List ℚ) : Bool :=
  !zero_weight_p ws && decide (ws.length > config.max_influences_per_vertex)

/-- Unnormalized classification: non-zero total differing from 1 by more than
the 0.001 tolerance (independent of the excess-influence test). -/
def unnormalized_p (ws : List ℚ) : Bool :=
  !zero_weight_p ws && decide (|ws.sum - 1| > 1/1000)

/-- The Stage-1 invariant: a stage reports FAIL exactly when one of its
checks is FAIL. -/
def stage_fail_iff (r : StageResult) : Prop :=
  r.status = StageStatus.FAIL ↔ ∃ c ∈ r.checks, c.status = CheckStatus.FAIL

/-- A face whose area is that of the collinear triangle (0,0),(1,0),(2,0). -/
def collinear_face : BMFace :=
  { fid := 0, area := triangle_area_2d ((0, 0), (1, 0), (2, 0)), loops := [] }

def collinear_bm : BMesh := { verts := [], edges := [], faces := [collinear_face] }

/-- A single vertex with five equal influences of 0.1: five influences (over
the default budget of 4) and total weight 0.5 (unnormalized). -/
def five_influence_mesh : SkinnedMesh :=
  { name := "mesh", per_vertex_weights := [[1/10, 1/10, 1/10, 1/10, 1/10]] }

/-- A valid draw: the first k indices of the population. -/
def sampler_first : Sampler := fun _n k => List.range k

/-- A valid draw: the last k indices of the population. -/
def sampler_last : Sampler := fun n k => (List.range k).map (fun j => n - k + j)

/-- One material whose metalness texture holds two pixels: R-channel 0.5
(a gradient value) and R-channel 0 (a binary value). -/
def gradient_metal_material : PBRMaterial :=
  { name := "mat", has_nodes := true, uses_principled_bsdf := true,
    uses_spec_gloss := false, orphan_image_node_count := 0,
    has_node_cycles := false, albedo_pixels := none,
    metalness_pixels := some [1/2, 0, 0, 1, 0, 0, 0, 1],
    roughness_pixels := none, normal_map_data := [] }

/-- A sampling cap of one pixel. -/
def one_sample_config : PBRConfig := { albedo_sample_count := 1 }

/-- One material with single-pixel albedo and metalness textures, within any
default sampling cap. -/
def small_material : PBRMaterial :=
  { name := "m", has_nodes := true, uses_principled_bsdf := true,
    uses_spec_gloss := false, orphan_image_node_count := 0,
    has_node_cycles := false, albedo_pixels := some [1/2, 1/2, 1/2, 1],
    metalness_pixels := some [0, 0, 0, 1],
    roughness_pixels := none, normal_map_data := [] }

def default_check_result : CheckResult :=
  { name := "", status := CheckStatus.PASS, measured_value := .count 0 }

/-- Lookup in the association-list grid (empty list when the cell is absent). -/
def gval : Grid → (ℤ × ℤ) → List ℕ
  | [], _ => []
  | (c0, l) :: rest, c => if c0 = c then l else gval rest c

/-- Whether two triangles' grid-cell ranges intersect, i.e. whether the
spatial hash files them together in at least one cell. -/
def share_cell (t u : Tri) : Bool :=
  let a := cell_box t
  let b := cell_box u
  decide (max a.1 b.1 ≤ min a.2.2.1 b.2.2.1) &&
    decide (max a.2.1 b.2.1 ≤ min a.2.2.2 b.2.2.2)

/-- A pair of triangles that the spatial hash tests and finds overlapping. -/
def overlap_candidate (t u : Tri) : Bool := share_cell t u && triangles_overlap t u

/-- Number of unordered position pairs of a list satisfying a symmetric
boolean relation. -/
def pairCount {α : Type} (P : α → α → Bool) : List α → ℕ
  | [] => 0
  | x :: xs => xs.countP (P x) + pairCount P xs

/-- All index pairs (a, b) with a < b < n, each exactly once. -/
def allPairs : ℕ → List (ℕ × ℕ)
  | 0 => []
  | n + 1 => allPairs n ++ (List.range n).map (fun a => (a, n))

/-- Count of first occurrences satisfying P among elements not yet seen. -/
def dcount {β : Type} [DecidableEq β] (P : β → Bool) : List β → List β → ℕ
  | _, [] => 0
  | seen, p :: ps =>
    if p ∈ seen then dcount P seen ps
    else (if P p then 1 else 0) + dcount P (p :: seen) ps

/-- The stream of candidate index pairs scanned by `_find_overlapping_pairs`,
cell by cell in grid iteration order. -/
def pair_list (triangles : List Tri) : List (ℕ × ℕ) :=
  (buildGrid triangles).flatMap (fun e => cellPairs e.2)

/-- `pairCount` expressed over index pairs of list positions. -/
def position_pair_count (q : Tri → Tri → Bool) (l : List Tri) : ℕ :=
  (allPairs l.length).countP (fun p => q (l.getD p.1 dTri) (l.getD p.2 dTri))

/-- Two UV triangles of the unit square scaled into one grid cell, sharing
exactly the edge from (1/16, 0) to (0, 1/16). -/
def touch_tri_a : Tri := ((0, 0), (1/16, 0), (0, 1/16))

def touch_tri_b : Tri := ((1/16, 0), (0, 1/16), (1/16, 1/16))

/-- A point strictly inside a triangle: all three edge cross products carry
the same strict sign. -/
def strictly_inside (p : Pt) (t : Tri) : Prop :=
  (0 < cross_2d t.1 t.2.1 p ∧ 0 < cross_2d t.2.1 t.2.2 p ∧ 0 < cross_2d t.2.2 t.1 p) ∨
  (cross_2d t.1 t.2.1 p < 0 ∧ cross_2d t.2.1 t.2.2 p < 0 ∧ cross_2d t.2.2 t.1 p < 0)

/-- Two triangles share no interior point (they overlap in measure zero). -/
def interiors_disjoint (t u : Tri) : Prop :=
  ∀ p : Pt, ¬ (strictly_inside p t ∧ strictly_inside p u)

/-! ## Theorems -/

theorem sum_map_pos {α : Type} (f : α → ℕ) (l : List α) :
    0 < (l.map f).sum ↔ ∃ x ∈ l, 0 < f x := by
  induction l with
  | nil => simp
  | cons a l ih =>
    simp only [List.map_cons, List.sum_cons, List.mem_cons]
    constructor
    · intro h
      rcases Nat.pos_iff_ne_zero.mp h |> fun hne => Nat.eq_zero_or_pos (f a) with h0 | hp
      · rw [h0, Nat.zero_add] at h
        obtain ⟨x, hx, hfx⟩ := ih.mp h
        exact ⟨x, Or.inr hx, hfx⟩
      · exact ⟨a, Or.inl rfl, hp⟩
    · rintro ⟨x, hx | hx, hfx⟩
      · subst hx; omega
      · have := ih.mpr ⟨x, hx, hfx⟩; omega

theorem stage_fail_status_eq (checks : List CheckResult) :
    stage_fail_status checks = StageStatus.FAIL ↔
      ∃ c ∈ checks, c.status = CheckStatus.FAIL := by
  unfold stage_fail_status
  split_ifs with h <;> simp only [List.any_eq_true, decide_eq_true_eq] at h
  · exact iff_of_true rfl h
  · exact iff_of_false (by decide) h

/-- C7: For every combination of Stage-1 results and configuration, the
Remediation stage returns a StageResult whose status is PASS, with an empty
check list — its only outputs are the fix entries and review flags. -/
theorem remediation_always_pass (ctx : RemediationContext)
    (stage1_results : List StageResult) (config : RemediationConfig) :
    (run_remediation ctx stage1_results config).status = StageStatus.PASS ∧
    (run_remediation ctx stage1_results config).checks = [] :=
  ⟨rfl, rfl⟩

theorem largest_pot_loop_ge (n : ℕ) :
    ∀ fuel pot, pot ≤ largest_pot_loop n pot fuel := by
  intro fuel
  induction fuel with
  | zero => intro pot; exact le_refl _
  | succ f ih =>
    intro pot
    show (if pot * 2 ≤ n then largest_pot_loop n (pot * 2) f else pot) ≥ pot
    split_ifs with h
    · exact le_trans (by omega) (ih (pot * 2))
    · exact le_refl _

theorem largest_pot_loop_le (n : ℕ) :
    ∀ fuel pot, pot ≤ n → largest_pot_loop n pot fuel ≤ n := by
  intro fuel
  induction fuel with
  | zero => intro pot h; exact h
  | succ f ih =>
    intro pot h
    show (if pot * 2 ≤ n then largest_pot_loop n (pot * 2) f else pot) ≤ n
    split_ifs with h2
    · exact ih (pot * 2) h2
    · exact h

theorem largest_pot_ge_one (z : ℤ) : 1 ≤ largest_pot z := by
  unfold largest_pot
  split_ifs with h
  · exact le_refl 1
  · exact largest_pot_loop_ge _ _ 1

theorem largest_pot_le {z : ℤ} {t : ℕ} (h1 : 1 ≤ t) (hz : z ≤ (t : ℤ)) :
    largest_pot z ≤ t := by
  unfold largest_pot
  split_ifs with h
  · exact h1
  · have hz1 : 1 ≤ z.toNat := by omega
    have hz2 : z.toNat ≤ t := by omega
    exact le_trans (largest_pot_loop_le _ _ _ hz1) hz2

theorem pyInt_le_natCast {q : ℚ} {m : ℕ} (h : q ≤ (m : ℚ)) : pyInt q ≤ (m : ℤ) := by
  unfold pyInt
  split_ifs with h0
  · calc ⌊q⌋ ≤ ⌊(m : ℚ)⌋ := Int.floor_le_floor h
      _ = (m : ℤ) := by exact_mod_cast Int.floor_natCast m
  · have hq0 : q ≤ ((0 : ℤ) : ℚ) := by
      push_cast
      exact le_of_not_le h0
    calc ⌈q⌉ ≤ 0 := Int.ceil_le.mpr hq0
      _ ≤ (m : ℤ) := by positivity

theorem compute_new_size_le {w h limit : ℕ} (hl : 1 ≤ limit)
    (hover : limit < max w h) :
    (compute_new_size w h limit).1 ≤ limit ∧ (compute_new_size w h limit).2 ≤ limit := by
  have htarget1 : 1 ≤ largest_pot (limit : ℤ) := largest_pot_ge_one _
  have htargetle : largest_pot (limit : ℤ) ≤ limit := largest_pot_le hl (le_refl _)
  have hmd : 0 < max w h := lt_of_le_of_lt (Nat.zero_le _) hover
  have hmdQ : (0 : ℚ) < ((max w h : ℕ) : ℚ) := by exact_mod_cast hmd
  have key : ∀ d : ℕ, d ≤ max w h →
      largest_pot (pyInt ((d : ℚ) * ((largest_pot (limit : ℤ) : ℚ) / ((max w h : ℕ) : ℚ)))) ≤ limit := by
    intro d hd
    set t := largest_pot (limit : ℤ) with ht
    have hq : (d : ℚ) * ((t : ℚ) / ((max w h : ℕ) : ℚ)) ≤ (t : ℚ) := by
      rw [mul_div_assoc']
      rw [div_le_iff₀ hmdQ]
      have : (d : ℚ) ≤ ((max w h : ℕ) : ℚ) := by exact_mod_cast hd
      calc (d : ℚ) * (t : ℚ) ≤ ((max w h : ℕ) : ℚ) * (t : ℚ) := by
            apply mul_le_mul_of_nonneg_right this (by positivity)
        _ = (t : ℚ) * ((max w h : ℕ) : ℚ) := by ring
    have hle : pyInt ((d : ℚ) * ((t : ℚ) / ((max w h : ℕ) : ℚ))) ≤ (t : ℤ) := pyInt_le_natCast hq
    exact le_trans (largest_pot_le htarget1 (by exact_mod_cast hle)) htargetle
  constructor
  · show largest_pot (pyInt ((w : ℚ) *
      ((largest_pot (limit : ℤ) : ℚ) / ((max w h : ℕ) : ℚ)))) ≤ limit
    exact key w (le_max_left _ _)
  · show largest_pot (pyInt ((h : ℚ) *
      ((largest_pot (limit : ℤ) : ℚ) / ((max w h : ℕ) : ℚ)))) ≤ limit
    exact key h (le_max_right _ _)

/-- C6: The texture-resize remediation is idempotent: an image with both
dimensions within the resolved limit is never resized; applying the fix a
second time to the result of a first application changes nothing; and the
4096×4096 image with standard limit 2048 is resized to exactly 2048×2048. -/
theorem resize_idempotent (limit : ℕ) (wh : ℕ × ℕ) (hl : 1 ≤ limit) :
    (wh.1 ≤ limit → wh.2 ≤ limit → resize_image limit wh = wh) ∧
    resize_image limit (resize_image limit wh) = resize_image limit wh ∧
    resize_image 2048 (4096, 4096) = (2048, 2048) := by
  have hconc : resize_image 2048 (4096, 4096) = (2048, 2048) := by
    show (if (4096 : ℕ) > 2048 ∨ (4096 : ℕ) > 2048 then
        compute_new_size 4096 4096 2048 else (4096, 4096)) = (2048, 2048)
    rw [if_pos (Or.inl (by norm_num))]
    have h1 : largest_pot ((2048 : ℕ) : ℤ) = 2048 := by decide
    unfold compute_new_size
    rw [h1]
    norm_num [pyInt]
    decide
  refine ⟨?_, ?_, hconc⟩
  · intro h1 h2
    unfold resize_image
    rw [if_neg (by omega)]
  · by_cases hc : wh.1 > limit ∨ wh.2 > limit
    · have hover : limit < max wh.1 wh.2 := by
        rcases hc with h | h
        · exact lt_of_lt_of_le h (le_max_left _ _)
        · exact lt_of_lt_of_le h (le_max_right _ _)
      have hle := compute_new_size_le (w := wh.1) (h := wh.2) hl hover
      show resize_image limit (resize_image limit wh) = resize_image limit wh
      unfold resize_image
      rw [if_pos hc, if_neg (by omega)]
    · show resize_image limit (resize_image limit wh) = resize_image limit wh
      unfold resize_image
      rw [if_neg hc, if_neg hc]

theorem resize_idempotent_witness :
    resize_image 2048 (resize_image 2048 (4096, 4096)) = resize_image 2048 (4096, 4096) :=
  (resize_idempotent 2048 (4096, 4096) (by decide)).2.1

theorem degenerate_count_pos (all_bm : List BMesh) :
    0 < degenerate_count all_bm ↔ ∃ f ∈ all_faces all_bm, f.area < 1/1000000 := by
  unfold degenerate_count all_faces
  rw [sum_map_pos]
  constructor
  · rintro ⟨bm, hbm, hpos⟩
    obtain ⟨f, hf, hp⟩ := List.countP_pos_iff.mp hpos
    exact ⟨f, List.mem_flatMap.mpr ⟨bm, hbm, hf⟩, of_decide_eq_true hp⟩
  · rintro ⟨f, hf, harea⟩
    obtain ⟨bm, hbm, hfbm⟩ := List.mem_flatMap.mp hf
    exact ⟨bm, hbm, List.countP_pos_iff.mpr ⟨f, hfbm, decide_eq_true harea⟩⟩

/-- C9: `degenerate_faces` is FAIL exactly when some face has area strictly
below 1e-6 (a face with area exactly 1e-6 does not count); its measured value
is the number of such faces; and any zero-area (collinear) face forces FAIL
with a count of at least 1. -/
theorem degenerate_faces_spec :
    (∀ all_bm : List BMesh,
      ((check_degenerate_faces all_bm).status = CheckStatus.FAIL ↔
        ∃ f ∈ all_faces all_bm, f.area < 1/1000000) ∧
      (check_degenerate_faces all_bm).measured_value = .count (degenerate_count all_bm)) ∧
    (∀ all_bm : List BMesh, ∀ bm ∈ all_bm, ∀ f ∈ bm.faces, f.area = 0 →
      (check_degenerate_faces all_bm).status = CheckStatus.FAIL ∧
        1 ≤ degenerate_count all_bm) := by
  have hstat : ∀ all_bm : List BMesh,
      (check_degenerate_faces all_bm).status = CheckStatus.FAIL ↔
        0 < degenerate_count all_bm := by
    intro all_bm
    show (if degenerate_count all_bm > 0 then CheckStatus.FAIL else CheckStatus.PASS) =
      CheckStatus.FAIL ↔ _
    split_ifs with h
    · exact iff_of_true rfl h
    · exact iff_of_false (by decide) h
  constructor
  · intro all_bm
    exact ⟨(hstat all_bm).trans (degenerate_count_pos all_bm), rfl⟩
  · intro all_bm bm hbm f hf harea
    have hmem : f ∈ all_faces all_bm := List.mem_flatMap.mpr ⟨bm, hbm, hf⟩
    have hpos : 0 < degenerate_count all_bm :=
      (degenerate_count_pos all_bm).mpr ⟨f, hmem, by rw [harea]; norm_num⟩
    exact ⟨(hstat all_bm).mpr hpos, hpos⟩

theorem degenerate_faces_spec_witness :
    (check_degenerate_faces [collinear_bm]).status = CheckStatus.FAIL ∧
      1 ≤ degenerate_count [collinear_bm] :=
  degenerate_faces_spec.2 [collinear_bm] collinear_bm (by simp)
    collinear_face (by simp [collinear_bm]) (by norm_num [collinear_face, triangle_area_2d])

/-- C3 counterexample: a single vertex with weights [0.1, 0.1, 0.1, 0.1, 0.1]
(five influences, total 0.5) under the default budget of 4 is counted BOTH as
excess-influences and as unnormalized — the three category counts sum to 2 on
a 1-vertex mesh, so the claim that no vertex is counted in more than one
category is false (the source uses two independent `if`s, not an `elif`). -/
theorem vertex_weights_double_count :
    vertex_weight_counts [five_influence_mesh] {} = (0, 1, 1) ∧
    total_vertex_count [five_influence_mesh] <
      (vertex_weight_counts [five_influence_mesh] {}).1 +
        (vertex_weight_counts [five_influence_mesh] {}).2.1 +
        (vertex_weight_counts [five_influence_mesh] {}).2.2 := by
  have hcounts : vertex_weight_counts [five_influence_mesh] {} = (0, 1, 1) := by
    have hsum : (([1/10, 1/10, 1/10, 1/10, 1/10] : List ℚ)).sum = 1/2 := by
      norm_num [List.sum_cons, List.sum_nil]
    unfold vertex_weight_counts five_influence_mesh
    simp only [List.foldl_cons, List.foldl_nil]
    rw [hsum]
    rw [if_neg (by norm_num)]
    norm_num
    rw [abs_of_pos (show (0:ℚ) < 1/2 by norm_num)]
    norm_num
  refine ⟨hcounts, ?_⟩
  rw [hcounts]
  decide


/-- C1: The overall report status is computed with fixed precedence over all
stages (including Remediation): FAIL if any stage's status is FAIL; otherwise
NEEDS_REVIEW if any stage has at least one review flag; otherwise
PASS_WITH_FIXES if any stage has at least one fix; otherwise PASS.  A single
FAIL stage forces overall FAIL regardless of fixes/flags, and with zero FAIL
stages one flag forces NEEDS_REVIEW even when fixes also exist. -/
theorem overall_status_precedence (stages : List StageResult) :
    (compute_status stages = OverallStatus.FAIL ↔
      (∃ s ∈ stages, s.status = StageStatus.FAIL)) ∧
    (compute_status stages = OverallStatus.NEEDS_REVIEW ↔
      ((¬ ∃ s ∈ stages, s.status = StageStatus.FAIL) ∧
        ∃ s ∈ stages, s.review_flags ≠ [])) ∧
    (compute_status stages = OverallStatus.PASS_WITH_FIXES ↔
      ((¬ ∃ s ∈ stages, s.status = StageStatus.FAIL) ∧
        (¬ ∃ s ∈ stages, s.review_flags ≠ []) ∧
        ∃ s ∈ stages, s.fixes ≠ [])) ∧
    (compute_status stages = OverallStatus.PASS ↔
      ((¬ ∃ s ∈ stages, s.status = StageStatus.FAIL) ∧
        (¬ ∃ s ∈ stages, s.review_flags ≠ []) ∧
        ¬ ∃ s ∈ stages, s.fixes ≠ [])) := by
  have hA : (stages.any fun s => decide (s.status = StageStatus.FAIL)) = true ↔
      ∃ s ∈ stages, s.status = StageStatus.FAIL := by
    simp
  have hB : (stages.any fun s => !s.review_flags.isEmpty) = true ↔
      ∃ s ∈ stages, s.review_flags ≠ [] := by
    simp [List.isEmpty_eq_false]
  have hC : (stages.any fun s => !s.fixes.isEmpty) = true ↔
      ∃ s ∈ stages, s.fixes ≠ [] := by
    simp [List.isEmpty_eq_false]
  unfold compute_status
  split_ifs with h1 h2 h3
  · have hF := hA.mp h1
    refine ⟨iff_of_true rfl ⟨hF.choose, hF.choose_spec.1, hF.choose_spec.2⟩, ?_, ?_, ?_⟩
    · exact iff_of_false (by decide) (fun h => h.1 hF)
    · exact iff_of_false (by decide) (fun h => h.1 hF)
    · exact iff_of_false (by decide) (fun h => h.1 hF)
  · have hnF : ¬ ∃ s ∈ stages, s.status = StageStatus.FAIL := fun h => h1 (hA.mpr h)
    have hR := hB.mp h2
    refine ⟨iff_of_false (by decide) hnF, iff_of_true rfl ⟨hnF, hR⟩, ?_, ?_⟩
    · exact iff_of_false (by decide) (fun h => h.2.1 hR)
    · exact iff_of_false (by decide) (fun h => h.2.1 hR)
  · have hnF : ¬ ∃ s ∈ stages, s.status = StageStatus.FAIL := fun h => h1 (hA.mpr h)
    have hnR : ¬ ∃ s ∈ stages, s.review_flags ≠ [] := fun h => h2 (hB.mpr h)
    have hX := hC.mp h3
    refine ⟨iff_of_false (by decide) hnF, iff_of_false (by decide) (fun h => hnR h.2), ?_, ?_⟩
    · exact iff_of_true rfl ⟨hnF, hnR, hX⟩
    · exact iff_of_false (by decide) (fun h => h.2.2 hX)
  · have hnF : ¬ ∃ s ∈ stages, s.status = StageStatus.FAIL := fun h => h1 (hA.mpr h)
    have hnR : ¬ ∃ s ∈ stages, s.review_flags ≠ [] := fun h => h2 (hB.mpr h)
    have hnX : ¬ ∃ s ∈ stages, s.fixes ≠ [] := fun h => h3 (hC.mpr h)
    refine ⟨iff_of_false (by decide) hnF, iff_of_false (by decide) (fun h => hnR h.2),
      iff_of_false (by decide) (fun h => hnX h.2.2), iff_of_true rfl ⟨hnF, hnR, hnX⟩⟩

theorem vertex_weights_foldl (config : ArmatureConfig) (vs : List (List ℚ)) :
    ∀ acc : ℕ × ℕ × ℕ,
      vs.foldl (fun acc weights =>
        let total := weights.sum
        if total < 1/1000000 then
          (acc.1 + 1, acc.2.1, acc.2.2)
        else
          (acc.1,
           acc.2.1 + (if weights.length > config.max_influences_per_vertex then 1 else 0),
           acc.2.2 + (if |total - 1| > 1/1000 then 1 else 0))) acc
      = (acc.1 + vs.countP zero_weight_p,
         acc.2.1 + vs.countP (excess_influence_p config),
         acc.2.2 + vs.countP (unnormalized_p)) := by
  induction vs with
  | nil => intro acc; simp
  | cons w vs ih =>
    intro acc
    rw [List.foldl_cons]
    by_cases h1 : w.sum < 1/1000000
    · have hz : zero_weight_p w = true := by
        simp only [zero_weight_p, decide_eq_true_eq]; exact h1
      have he : excess_influence_p config w = false := by simp [excess_influence_p, hz]
      have hu : unnormalized_p w = false := by simp [unnormalized_p, hz]
      simp only [if_pos h1, ih, List.countP_cons, hz, he, hu]
      simp [Prod.ext_iff]
      omega
    · have hz : zero_weight_p w = false := by
        simp only [zero_weight_p, decide_eq_false_iff_not]; exact h1
      have he : excess_influence_p config w =
          decide (w.length > config.max_influences_per_vertex) := by
        simp [excess_influence_p, hz]
      have hu : unnormalized_p w = decide (|w.sum - 1| > 1/1000) := by
        simp [unnormalized_p, hz]
      simp only [if_neg h1, ih, List.countP_cons, hz, he, hu]
      simp [Prod.ext_iff]
      split_ifs <;> omega

theorem vertex_weight_counts_eq (meshes : List SkinnedMesh) (config : ArmatureConfig) :
    ∀ acc : ℕ × ℕ × ℕ,
      meshes.foldl (fun acc mesh =>
        mesh.per_vertex_weights.foldl (fun acc weights =>
          let total := weights.sum
          if total < 1/1000000 then
            (acc.1 + 1, acc.2.1, acc.2.2)
          else
            (acc.1,
             acc.2.1 + (if weights.length > config.max_influences_per_vertex then 1 else 0),
             acc.2.2 + (if |total - 1| > 1/1000 then 1 else 0))) acc) acc
      = (acc.1 + (all_vertex_weights meshes).countP zero_weight_p,
         acc.2.1 + (all_vertex_weights meshes).countP (excess_influence_p config),
         acc.2.2 + (all_vertex_weights meshes).countP (unnormalized_p)) := by
  induction meshes with
  | nil => intro acc; simp [all_vertex_weights]
  | cons m ms ih =>
    intro acc
    rw [List.foldl_cons, vertex_weights_foldl config m.per_vertex_weights acc, ih]
    have hsplit : all_vertex_weights (m :: ms) =
        m.per_vertex_weights ++ all_vertex_weights ms := by
      simp [all_vertex_weights]
    rw [hsplit]
    simp [List.countP_append, Prod.ext_iff]
    omega

/-- C3 amended: zero-total-weight vertices (total below the 1e-6 cutoff) are
counted only as zero-weight; all other vertices are tested independently for
excess influences and for unnormalized total — a vertex can be counted in both
categories — and the check is FAIL exactly when any of the three counts is
positive. -/
theorem vertex_weights_counts_spec (meshes : List SkinnedMesh) (config : ArmatureConfig) :
    vertex_weight_counts meshes config =
      ((all_vertex_weights meshes).countP zero_weight_p,
       (all_vertex_weights meshes).countP (excess_influence_p config),
       (all_vertex_weights meshes).countP (unnormalized_p)) ∧
    ((check_vertex_weights meshes config).status = CheckStatus.FAIL ↔
      ∃ ws ∈ all_vertex_weights meshes,
        ws.sum < 1/1000000 ∨
        (¬ ws.sum < 1/1000000 ∧ config.max_influences_per_vertex < ws.length) ∨
        (¬ ws.sum < 1/1000000 ∧ 1/1000 < |ws.sum - 1|)) := by
  have hB : vertex_weight_counts meshes config =
      ((all_vertex_weights meshes).countP zero_weight_p,
       (all_vertex_weights meshes).countP (excess_influence_p config),
       (all_vertex_weights meshes).countP (unnormalized_p)) := by
    have := vertex_weight_counts_eq meshes config (0, 0, 0)
    simpa [vertex_weight_counts] using this
  refine ⟨hB, ?_⟩
  have hshape : (check_vertex_weights meshes config).status =
      (if (vertex_weight_counts meshes config).1 > 0 ∨
          (vertex_weight_counts meshes config).2.1 > 0 ∨
          (vertex_weight_counts meshes config).2.2 > 0
       then CheckStatus.FAIL else CheckStatus.PASS) := rfl
  rw [hshape, hB]
  have htrans : ((all_vertex_weights meshes).countP zero_weight_p > 0 ∨
      (all_vertex_weights meshes).countP (excess_influence_p config) > 0 ∨
      (all_vertex_weights meshes).countP (unnormalized_p) > 0) ↔
      ∃ ws ∈ all_vertex_weights meshes,
        ws.sum < 1/1000000 ∨
        (¬ ws.sum < 1/1000000 ∧ config.max_influences_per_vertex < ws.length) ∨
        (¬ ws.sum < 1/1000000 ∧ 1/1000 < |ws.sum - 1|) := by
    constructor
    · rintro (h | h | h) <;> obtain ⟨ws, hm, hp⟩ := List.countP_pos_iff.mp h <;>
        refine ⟨ws, hm, ?_⟩
      · left
        simpa [zero_weight_p] using hp
      · right; left
        simp only [excess_influence_p, zero_weight_p, Bool.and_eq_true,
          Bool.not_eq_true', decide_eq_false_iff_not, decide_eq_true_eq] at hp
        exact hp
      · right; right
        simp only [unnormalized_p, zero_weight_p, Bool.and_eq_true,
          Bool.not_eq_true', decide_eq_false_iff_not, decide_eq_true_eq] at hp
        exact hp
    · rintro ⟨ws, hm, hp | hp | hp⟩
      · exact Or.inl (List.countP_pos_iff.mpr ⟨ws, hm, by
          simp only [zero_weight_p, decide_eq_true_eq]; exact hp⟩)
      · exact Or.inr (Or.inl (List.countP_pos_iff.mpr ⟨ws, hm, by
          simp only [excess_influence_p, zero_weight_p, Bool.and_eq_true,
            Bool.not_eq_true', decide_eq_false_iff_not, decide_eq_true_eq]
          exact hp⟩))
      · exact Or.inr (Or.inr (List.countP_pos_iff.mpr ⟨ws, hm, by
          simp only [unnormalized_p, zero_weight_p, Bool.and_eq_true,
            Bool.not_eq_true', decide_eq_false_iff_not, decide_eq_true_eq]
          exact hp⟩))
  split_ifs with h
  · exact iff_of_true rfl (htrans.mp h)
  · exact iff_of_false (by decide) (fun hx => h (htrans.mpr hx))

theorem nat_land_self (m : ℕ) : m &&& m = m := by
  apply Nat.eq_of_testBit_eq
  intro i
  simp [Nat.testBit_land]

theorem land_pred_eq_zero_iff : ∀ n : ℕ, 0 < n → (n &&& (n - 1) = 0 ↔ ∃ k : ℕ, n = 2 ^ k) := by
  intro n
  induction n using Nat.strong_induction_on with
  | _ n ih =>
    intro hn
    rcases Nat.even_or_odd n with he | ho
    · obtain ⟨m, hm⟩ := he
      have hm2 : n = 2 * m := by omega
      have hmpos : 0 < m := by omega
      have h1 : n - 1 = 2 * (m - 1) + 1 := by omega
      have e1 : Nat.bit false m = 2 * m := congrFun Nat.bit_false m
      have e2 : Nat.bit true (m - 1) = 2 * (m - 1) + 1 := congrFun Nat.bit_true (m - 1)
      have e3 : Nat.bit false (m &&& (m - 1)) = 2 * (m &&& (m - 1)) :=
        congrFun Nat.bit_false _
      have key : n &&& (n - 1) = 2 * (m &&& (m - 1)) := by
        rw [h1, hm2, ← e1, ← e2, Nat.land_bit, ← e3]
        rfl
      have hiff := ih m (by omega) hmpos
      constructor
      · intro h0
        rw [key] at h0
        obtain ⟨j, hj⟩ := hiff.mp (by omega)
        exact ⟨j + 1, by rw [hm2, hj, pow_succ]; ring⟩
      · rintro ⟨k, hk⟩
        rw [key]
        match k, hk with
        | 0, hk => omega
        | j + 1, hk =>
          have hmj : m = 2 ^ j := by
            have : 2 * m = 2 * 2 ^ j := by rw [← hm2, hk, pow_succ]; ring
            omega
          have := hiff.mpr ⟨j, hmj⟩
          omega
    · obtain ⟨m, hm⟩ := ho
      by_cases hm0 : m = 0
      · subst hm0
        have hn1 : n = 1 := by omega
        subst hn1
        exact iff_of_true (by decide) ⟨0, rfl⟩
      · have h1 : n - 1 = 2 * m := by omega
        have e1 : Nat.bit true m = 2 * m + 1 := congrFun Nat.bit_true m
        have e2 : Nat.bit false m = 2 * m := congrFun Nat.bit_false m
        have e3 : Nat.bit false (m &&& m) = 2 * (m &&& m) := congrFun Nat.bit_false _
        have key : n &&& (n - 1) = 2 * m := by
          rw [h1, hm, ← e1, ← e2, Nat.land_bit, nat_land_self]
          rfl
        constructor
        · intro h0
          rw [key] at h0
          omega
        · rintro ⟨k, hk⟩
          match k, hk with
          | 0, hk => omega
          | j + 1, hk =>
            have : n = 2 * 2 ^ j := by rw [hk, pow_succ]; ring
            omega

theorem is_power_of_two_iff (n : ℕ) : is_power_of_two n = true ↔ ∃ k : ℕ, n = 2 ^ k := by
  unfold is_power_of_two
  constructor
  · intro h
    simp only [Bool.and_eq_true, decide_eq_true_eq] at h
    exact (land_pred_eq_zero_iff n h.1).mp h.2
  · rintro ⟨k, rfl⟩
    have hpos : 0 < 2 ^ k := pow_pos (by norm_num) k
    simp only [Bool.and_eq_true, decide_eq_true_eq]
    exact ⟨hpos, (land_pred_eq_zero_iff _ hpos).mpr ⟨k, rfl⟩⟩

/-- C8: the `power_of_two` dimension predicate accepts exactly the sizes of
the form 2^k (including 1 = 2^0), rejecting 0 and every non-power-of-two; the
check is FAIL iff some image has a width or height that is not a power of
two. -/
theorem power_of_two_spec :
    (∀ n : ℕ, is_power_of_two n = true ↔ ∃ k : ℕ, n = 2 ^ k) ∧
    is_power_of_two 0 = false ∧
    (∀ images : List TextureImage,
      (check_power_of_two images).status = CheckStatus.FAIL ↔
        ∃ img ∈ images,
          (¬ ∃ k : ℕ, img.size.1 = 2 ^ k) ∨ (¬ ∃ k : ℕ, img.size.2 = 2 ^ k)) := by
  refine ⟨is_power_of_two_iff, by decide, ?_⟩
  intro images
  have hpred : ∀ img : TextureImage,
      (!(is_power_of_two img.size.1 && is_power_of_two img.size.2)) = true ↔
        ((¬ ∃ k : ℕ, img.size.1 = 2 ^ k) ∨ (¬ ∃ k : ℕ, img.size.2 = 2 ^ k)) := by
    intro img
    rw [Bool.not_eq_true', Bool.and_eq_false_iff]
    constructor
    · rintro (h | h)
      · exact Or.inl (fun hx => by rw [(is_power_of_two_iff _).mpr hx] at h; cases h)
      · exact Or.inr (fun hx => by rw [(is_power_of_two_iff _).mpr hx] at h; cases h)
    · rintro (h | h)
      · exact Or.inl (by
          cases hcase : is_power_of_two img.size.1 with
          | false => rfl
          | true => exact absurd ((is_power_of_two_iff _).mp hcase) h)
      · exact Or.inr (by
          cases hcase : is_power_of_two img.size.2 with
          | false => rfl
          | true => exact absurd ((is_power_of_two_iff _).mp hcase) h)
  have hshape : (check_power_of_two images).status =
      (if !((images.filter (fun img =>
          !(is_power_of_two img.size.1 && is_power_of_two img.size.2))).map
          (fun img => (img.name, img.size.1, img.size.2))).isEmpty
       then CheckStatus.FAIL else CheckStatus.PASS) := rfl
  have hne : (!((images.filter (fun img =>
      !(is_power_of_two img.size.1 && is_power_of_two img.size.2))).map
      (fun img => (img.name, img.size.1, img.size.2))).isEmpty) = true ↔
      ∃ img ∈ images,
        (!(is_power_of_two img.size.1 && is_power_of_two img.size.2)) = true := by
    simp [List.isEmpty_iff, List.filter_eq_nil_iff]
    constructor <;> rintro ⟨x, hx, hp⟩ <;> refine ⟨x, hx, ?_⟩
    · cases hcase : is_power_of_two x.size.1 with
      | false => exact Or.inl rfl
      | true => exact Or.inr (hp hcase)
    · cases hp with
      | inl h => intro hc; rw [h] at hc; cases hc
      | inr h => intro _; exact h
  rw [hshape]
  split_ifs with h
  · refine iff_of_true rfl ?_
    obtain ⟨img, himg, hbad⟩ := hne.mp h
    exact ⟨img, himg, (hpred img).mp hbad⟩
  · refine iff_of_false (by decide) ?_
    rintro ⟨img, himg, hbad⟩
    exact h (hne.mpr ⟨img, himg, (hpred img).mpr hbad⟩)

/-- C2: every Stage-1 check engine (geometry, uv, texture, pbr, armature,
scene) returns a StageResult whose status is FAIL iff at least one contained
check is FAIL; WARNING or SKIPPED checks alone never fail a stage (the
armature engine's early SKIPPED exit carries a single SKIPPED check, so both
sides of the equivalence are false there). -/
theorem stage_fail_iff_all_engines :
    (∀ (objs : List GeoMeshObject) (config : GeometryConfig),
      stage_fail_iff (check_geometry objs config)) ∧
    (∀ (objects : List UVMeshObject) (config : UVConfig),
      stage_fail_iff (check_uvs objects config)) ∧
    (∀ (materials : List TextureMaterial) (images : List TextureImage)
      (config : TextureConfig), stage_fail_iff (check_textures materials images config)) ∧
    (∀ (mesh_objects : List PBRMeshObject) (materials : List PBRMaterial)
      (config : PBRConfig) (sample : Sampler),
      stage_fail_iff (check_pbr mesh_objects materials config sample)) ∧
    (∀ (armatures : List ArmatureObject) (skinned_meshes : List SkinnedMesh)
      (config : ArmatureConfig),
      stage_fail_iff (check_armature armatures skinned_meshes config)) ∧
    (∀ (mesh_objects : List SceneMeshObject) (armature_objects : List SceneArmatureObject)
      (unique_images : List SceneImage) (orphan_counts : List (String × ℕ))
      (config : SceneConfig),
      stage_fail_iff
        (check_scene mesh_objects armature_objects unique_images orphan_counts config).1) := by
  refine ⟨?_, ?_, ?_, ?_, ?_, ?_⟩
  · intro objs config
    exact stage_fail_status_eq _
  · intro objects config
    exact stage_fail_status_eq _
  · intro materials images config
    exact stage_fail_status_eq _
  · intro mesh_objects materials config sample
    exact stage_fail_status_eq _
  · intro armatures skinned_meshes config
    unfold stage_fail_iff check_armature
    split_ifs with h
    · simp
    · exact stage_fail_status_eq _
  · intro mesh_objects armature_objects unique_images orphan_counts config
    exact stage_fail_status_eq _

theorem sampler_first_valid : valid_sampler sampler_first := by
  intro n k hk
  refine ⟨List.length_range k, List.nodup_range k, ?_⟩
  intro i hi
  have := List.mem_range.mp hi
  omega

theorem sampler_last_valid : valid_sampler sampler_last := by
  intro n k hk
  refine ⟨by simp [sampler_last], ?_, ?_⟩
  · exact List.Nodup.map (fun a b hab => by omega) (List.nodup_range k)
  · intro i hi
    simp only [sampler_last, List.mem_map, List.mem_range] at hi
    obtain ⟨j, hj, rfl⟩ := hi
    omega

theorem metalness_first_eval :
    (check_metalness_binary [gradient_metal_material] one_sample_config
      sampler_first).status = CheckStatus.WARNING := by
  have e1 : metalness_all_values [gradient_metal_material] 1 sampler_first = [1/2] := by
    simp [metalness_all_values, gradient_metal_material, pix_list, r_samples,
      sampler_first, List.range_succ]
  unfold check_metalness_binary
  rw [show one_sample_config.albedo_sample_count = 1 from rfl, e1]
  rw [if_neg (by simp)]
  simp only [List.length_singleton, gt_iff_lt, lt_irrefl, if_false]
  rw [show one_sample_config.metalness_binary_threshold = 1/10 from rfl]
  have hc : ([(1:ℚ)/2].countP fun v => decide (1/10 < v) && decide (v < 1 - 1/10)) = 1 := by
    simp only [List.countP_cons, List.countP_nil]
    norm_num
  rw [hc]
  rw [if_pos (by norm_num)]

theorem metalness_last_eval :
    (check_metalness_binary [gradient_metal_material] one_sample_config
      sampler_last).status = CheckStatus.PASS := by
  have e1 : metalness_all_values [gradient_metal_material] 1 sampler_last = [0] := by
    simp [metalness_all_values, gradient_metal_material, pix_list, r_samples,
      sampler_last, List.range_succ]
  unfold check_metalness_binary
  rw [show one_sample_config.albedo_sample_count = 1 from rfl, e1]
  rw [if_neg (by simp)]
  simp only [List.length_singleton, gt_iff_lt, lt_irrefl, if_false]
  rw [show one_sample_config.metalness_binary_threshold = 1/10 from rfl]
  have hc : ([(0:ℚ)].countP fun v => decide (1/10 < v) && decide (v < 1 - 1/10)) = 0 := by
    simp only [List.countP_cons, List.countP_nil]
    norm_num
  rw [hc]
  rw [if_neg (by norm_num)]

/-- C4 counterexample: the PBR engine is not a deterministic function of the
input snapshot and configuration alone.  On a fixed immutable snapshot (one
material, metalness pixels [0.5, 0]) with a fixed configuration (sample cap
1), two valid outcomes of `random.sample` — taking the first index versus the
last index — yield different results: the `metalness_binary` check is WARNING
under one draw and PASS under the other. -/
theorem pbr_sampling_nondeterministic :
    valid_sampler sampler_first ∧ valid_sampler sampler_last ∧
    check_pbr [] [gradient_metal_material] one_sample_config sampler_first ≠
      check_pbr [] [gradient_metal_material] one_sample_config sampler_last := by
  refine ⟨sampler_first_valid, sampler_last_valid, ?_⟩
  intro heq
  have hlist := congrArg (fun r => r.checks) heq
  simp only [check_pbr, List.cons.injEq, and_true] at hlist
  have hm := hlist.2.2.2.1
  have hst := congrArg CheckResult.status hm
  rw [metalness_first_eval, metalness_last_eval] at hst
  cases hst

theorem rgb_samples_indep (pixels : List ℚ) (cap : ℕ) (h : pixels.length / 4 ≤ cap)
    (s1 s2 : Sampler) : rgb_samples pixels cap s1 = rgb_samples pixels cap s2 := by
  unfold rgb_samples
  dsimp only
  split_ifs with h1 h2 <;> first | rfl | omega

theorem r_samples_indep (pixels : List ℚ) (cap : ℕ) (h : pixels.length / 4 ≤ cap)
    (s1 s2 : Sampler) : r_samples pixels cap s1 = r_samples pixels cap s2 := by
  unfold r_samples
  dsimp only
  split_ifs with h1 h2 <;> first | rfl | omega

theorem rgb_samples_length (pixels : List ℚ) (cap : ℕ) (s : Sampler)
    (h : pixels.length / 4 ≤ cap) :
    (rgb_samples pixels cap s).length = pixels.length / 4 := by
  unfold rgb_samples
  dsimp only
  split_ifs with h1 h2
  · simp [h1]
  · omega
  · simp

theorem r_samples_length (pixels : List ℚ) (cap : ℕ) (s : Sampler)
    (h : pixels.length / 4 ≤ cap) :
    (r_samples pixels cap s).length = pixels.length / 4 := by
  unfold r_samples
  dsimp only
  split_ifs with h1 h2
  · simp [h1]
  · omega
  · simp

theorem albedo_all_rgb_indep (materials : List PBRMaterial) (cap : ℕ) (s1 s2 : Sampler)
    (h : (materials.map (fun m => (pix_list m.albedo_pixels).length / 4)).sum ≤ cap) :
    albedo_all_rgb materials cap s1 = albedo_all_rgb materials cap s2 := by
  induction materials with
  | nil => rfl
  | cons m ms ih =>
    simp only [List.map_cons, List.sum_cons] at h
    unfold albedo_all_rgb
    simp only [List.flatMap_cons]
    have hm : (pix_list m.albedo_pixels).length / 4 ≤ cap := by omega
    have hms : (ms.map (fun m => (pix_list m.albedo_pixels).length / 4)).sum ≤ cap := by
      omega
    have ihms := ih hms
    unfold albedo_all_rgb at ihms
    rw [ihms]
    congr 1
    split_ifs with hp
    · rfl
    · exact rgb_samples_indep _ _ hm s1 s2

theorem albedo_all_rgb_length (materials : List PBRMaterial) (cap : ℕ) (s : Sampler)
    (h : (materials.map (fun m => (pix_list m.albedo_pixels).length / 4)).sum ≤ cap) :
    (albedo_all_rgb materials cap s).length ≤ cap := by
  have hgen : ∀ ms : List PBRMaterial,
      (ms.map (fun m => (pix_list m.albedo_pixels).length / 4)).sum ≤ cap →
      (albedo_all_rgb ms cap s).length ≤
        (ms.map (fun m => (pix_list m.albedo_pixels).length / 4)).sum := by
    intro ms
    induction ms with
    | nil => intro _; simp [albedo_all_rgb]
    | cons m ms ih =>
      intro hsum
      simp only [List.map_cons, List.sum_cons] at hsum ⊢
      unfold albedo_all_rgb
      simp only [List.flatMap_cons]
      simp only [List.length_append]
      have hm : (pix_list m.albedo_pixels).length / 4 ≤ cap := by omega
      have hrest := ih (by omega)
      unfold albedo_all_rgb at hrest
      dsimp only at hrest
      have hbranch : (if (pix_list m.albedo_pixels).isEmpty then []
          else rgb_samples (pix_list m.albedo_pixels) cap s).length ≤
          (pix_list m.albedo_pixels).length / 4 := by
        split_ifs with hp
        · simp
        · rw [rgb_samples_length _ _ _ hm]
      omega
  exact le_trans (hgen materials h) h

theorem r_values_indep (f : PBRMaterial → Option (List ℚ)) (materials : List PBRMaterial)
    (cap : ℕ) (s1 s2 : Sampler)
    (h : (materials.map (fun m => (pix_list (f m)).length / 4)).sum ≤ cap) :
    (materials.flatMap fun mat =>
      if (pix_list (f mat)).isEmpty then [] else r_samples (pix_list (f mat)) cap s1) =
    (materials.flatMap fun mat =>
      if (pix_list (f mat)).isEmpty then [] else r_samples (pix_list (f mat)) cap s2) := by
  induction materials with
  | nil => rfl
  | cons m ms ih =>
    simp only [List.map_cons, List.sum_cons] at h
    simp only [List.flatMap_cons]
    rw [ih (by omega)]
    congr 1
    split_ifs with hp
    · rfl
    · exact r_samples_indep _ _ (by omega) s1 s2

theorem r_values_length (f : PBRMaterial → Option (List ℚ)) (materials : List PBRMaterial)
    (cap : ℕ) (s : Sampler)
    (h : (materials.map (fun m => (pix_list (f m)).length / 4)).sum ≤ cap) :
    (materials.flatMap fun mat =>
      if (pix_list (f mat)).isEmpty then [] else r_samples (pix_list (f mat)) cap s).length
      ≤ cap := by
  have hgen : ∀ ms : List PBRMaterial,
      (ms.map (fun m => (pix_list (f m)).length / 4)).sum ≤ cap →
      (ms.flatMap fun mat =>
        if (pix_list (f mat)).isEmpty then [] else r_samples (pix_list (f mat)) cap s).length
        ≤ (ms.map (fun m => (pix_list (f m)).length / 4)).sum := by
    intro ms
    induction ms with
    | nil => intro _; simp
    | cons m ms ih =>
      intro hsum
      simp only [List.map_cons, List.sum_cons] at hsum ⊢
      simp only [List.flatMap_cons, List.length_append]
      have hm : (pix_list (f m)).length / 4 ≤ cap := by omega
      have hrest := ih (by omega)
      have hbranch : (if (pix_list (f m)).isEmpty then []
          else r_samples (pix_list (f m)) cap s).length ≤
          (pix_list (f m)).length / 4 := by
        split_ifs with hp
        · simp
        · rw [r_samples_length _ _ _ hm]
      omega
  exact le_trans (hgen materials h) h

theorem check_albedo_range_indep (materials : List PBRMaterial) (config : PBRConfig)
    (s1 s2 : Sampler)
    (h : (materials.map (fun m => (pix_list m.albedo_pixels).length / 4)).sum ≤
      config.albedo_sample_count) :
    check_albedo_range materials config s1 = check_albedo_range materials config s2 := by
  unfold check_albedo_range
  rw [albedo_all_rgb_indep materials config.albedo_sample_count s1 s2 h]
  have hlen := albedo_all_rgb_length materials config.albedo_sample_count s2 h
  dsimp only
  split_ifs with h1 h2 <;> first | rfl | omega

theorem check_metalness_binary_indep (materials : List PBRMaterial) (config : PBRConfig)
    (s1 s2 : Sampler)
    (h : (materials.map (fun m => (pix_list m.metalness_pixels).length / 4)).sum ≤
      config.albedo_sample_count) :
    check_metalness_binary materials config s1 = check_metalness_binary materials config s2 := by
  unfold check_metalness_binary
  have e : metalness_all_values materials config.albedo_sample_count s1 =
      metalness_all_values materials config.albedo_sample_count s2 :=
    r_values_indep (fun m => m.metalness_pixels) materials config.albedo_sample_count s1 s2 h
  rw [e]
  have hlen : (metalness_all_values materials config.albedo_sample_count s2).length ≤
      config.albedo_sample_count :=
    r_values_length (fun m => m.metalness_pixels) materials config.albedo_sample_count s2 h
  dsimp only
  split_ifs with h1 h2 <;> first | rfl | omega

theorem check_roughness_range_indep (materials : List PBRMaterial) (config : PBRConfig)
    (s1 s2 : Sampler)
    (h : (materials.map (fun m => (pix_list m.roughness_pixels).length / 4)).sum ≤
      config.albedo_sample_count) :
    check_roughness_range materials config s1 = check_roughness_range materials config s2 := by
  unfold check_roughness_range
  have e : roughness_all_values materials config.albedo_sample_count s1 =
      roughness_all_values materials config.albedo_sample_count s2 :=
    r_values_indep (fun m => m.roughness_pixels) materials config.albedo_sample_count s1 s2 h
  rw [e]
  have hlen : (roughness_all_values materials config.albedo_sample_count s2).length ≤
      config.albedo_sample_count :=
    r_values_length (fun m => m.roughness_pixels) materials config.albedo_sample_count s2 h
  dsimp only
  split_ifs with h1 h2 <;> first | rfl | omega

/-- C4 amended: every check engine is a deterministic function of the input
snapshot, the configuration AND the random sample draw; the PBR
pixel-sampling checks depend on the draw only when a channel's total pixel
count exceeds the sample cap.  When each channel's total sampled pixel count
is within the cap, `check_pbr` is independent of the draw. -/
theorem check_pbr_sampler_independent (mesh_objects : List PBRMeshObject)
    (materials : List PBRMaterial) (config : PBRConfig) (s1 s2 : Sampler)
    (ha : (materials.map (fun m => (pix_list m.albedo_pixels).length / 4)).sum ≤
      config.albedo_sample_count)
    (hm : (materials.map (fun m => (pix_list m.metalness_pixels).length / 4)).sum ≤
      config.albedo_sample_count)
    (hr : (materials.map (fun m => (pix_list m.roughness_pixels).length / 4)).sum ≤
      config.albedo_sample_count) :
    check_pbr mesh_objects materials config s1 = check_pbr mesh_objects materials config s2 := by
  unfold check_pbr
  rw [check_albedo_range_indep materials config s1 s2 ha,
    check_metalness_binary_indep materials config s1 s2 hm,
    check_roughness_range_indep materials config s1 s2 hr]

theorem check_pbr_sampler_independent_witness :
    check_pbr [] [small_material] {} sampler_first =
      check_pbr [] [small_material] {} sampler_last :=
  check_pbr_sampler_independent [] [small_material] {} sampler_first sampler_last
    (by decide) (by decide) (by decide)

theorem scanPairs_spec (triangles : List Tri) :
    ∀ (l : List (ℕ × ℕ)) (seen : List (ℕ × ℕ)) (cnt : ℕ),
      (scanPairs triangles seen cnt l).2 =
        cnt + dcount (overlapAt triangles) seen l := by
  intro l
  induction l with
  | nil => intro seen cnt; simp [scanPairs, dcount]
  | cons p ps ih =>
    intro seen cnt
    by_cases hp : p ∈ seen
    · rw [show scanPairs triangles seen cnt (p :: ps) = scanPairs triangles seen cnt ps from
        by rw [scanPairs]; rw [if_pos hp]]
      rw [ih, dcount, if_pos hp]
    · rw [show scanPairs triangles seen cnt (p :: ps) =
        scanPairs triangles (p :: seen)
          (cnt + if overlapAt triangles p then 1 else 0) ps from
        by rw [scanPairs]; rw [if_neg hp]]
      rw [ih, dcount, if_neg hp]
      omega

theorem dcount_eq_card {β : Type} [DecidableEq β] (P : β → Bool) :
    ∀ (l seen : List β),
      dcount P seen l = ((l.toFinset \ seen.toFinset).filter (fun x => P x = true)).card := by
  intro l
  induction l with
  | nil => intro seen; simp [dcount]
  | cons p ps ih =>
    intro seen
    by_cases hp : p ∈ seen
    · rw [dcount, if_pos hp, ih]
      have hset : (p :: ps).toFinset \ seen.toFinset = ps.toFinset \ seen.toFinset := by
        ext x
        simp only [List.toFinset_cons, Finset.mem_sdiff, Finset.mem_insert, List.mem_toFinset]
        constructor
        · rintro ⟨rfl | hx, hns⟩
          · exact absurd hp hns
          · exact ⟨hx, hns⟩
        · rintro ⟨hx, hns⟩
          exact ⟨Or.inr hx, hns⟩
      rw [hset]
    · rw [dcount, if_neg hp, ih]
      have h1 : (p :: ps).toFinset \ seen.toFinset =
          insert p (ps.toFinset \ seen.toFinset) := by
        ext x
        simp only [List.toFinset_cons, Finset.mem_sdiff, Finset.mem_insert, List.mem_toFinset]
        constructor
        · rintro ⟨rfl | hx, hns⟩
          · exact Or.inl rfl
          · exact Or.inr ⟨hx, hns⟩
        · rintro (rfl | ⟨hx, hns⟩)
          · exact ⟨Or.inl rfl, hp⟩
          · exact ⟨Or.inr hx, hns⟩
      have h2 : ps.toFinset \ (p :: seen).toFinset =
          (ps.toFinset \ seen.toFinset).erase p := by
        rw [List.toFinset_cons, Finset.sdiff_insert]
      rw [h1, h2, Finset.filter_insert, Finset.filter_erase]
      set A := (ps.toFinset \ seen.toFinset).filter (fun x => P x = true) with hA
      by_cases hP : P p = true
      · rw [if_pos hP, if_pos hP]
        by_cases hpA : p ∈ A
        · rw [Finset.insert_eq_self.mpr hpA, Finset.card_erase_of_mem hpA]
          have : 0 < A.card := Finset.card_pos.mpr ⟨p, hpA⟩
          omega
        · rw [Finset.card_insert_of_not_mem hpA, Finset.erase_eq_of_not_mem hpA]
          omega
      · rw [if_neg hP, if_neg hP]
        have hpf : p ∉ A := by
          rw [hA]
          intro hc
          exact hP (Finset.mem_filter.mp hc).2
        rw [Finset.erase_eq_of_not_mem hpf]
        omega

theorem mem_allPairs (p : ℕ × ℕ) : ∀ n : ℕ, p ∈ allPairs n ↔ p.1 < p.2 ∧ p.2 < n := by
  intro n
  induction n with
  | zero => simp [allPairs]
  | succ n ih =>
    rw [allPairs]
    simp only [List.mem_append, List.mem_map, List.mem_range, ih]
    constructor
    · rintro (⟨h1, h2⟩ | ⟨a, ha, rfl⟩)
      · omega
      · simp
        omega
    · rintro ⟨h1, h2⟩
      by_cases hc : p.2 < n
      · exact Or.inl ⟨h1, hc⟩
      · right
        refine ⟨p.1, by omega, ?_⟩
        have : p.2 = n := by omega
        rw [← this]

theorem allPairs_nodup : ∀ n : ℕ, (allPairs n).Nodup := by
  intro n
  induction n with
  | zero => simp [allPairs]
  | succ n ih =>
    rw [allPairs]
    refine List.Nodup.append ih ?_ ?_
    · exact List.Nodup.map (fun a b hab => by
        have := congrArg Prod.fst hab
        simpa using this) (List.nodup_range n)
    · intro p hp hq
      obtain ⟨a, _, rfl⟩ := List.mem_map.mp hq
      have := (mem_allPairs _ n).mp hp
      omega

theorem pairCount_concat {α : Type} (P : α → α → Bool) (x : α) :
    ∀ l : List α, pairCount P (l ++ [x]) = pairCount P l + l.countP (fun y => P y x) := by
  intro l
  induction l with
  | nil => simp [pairCount]
  | cons y l ih =>
    show List.countP (P y) (l ++ [x]) + pairCount P (l ++ [x]) = _
    rw [List.countP_append, ih]
    show _ = List.countP (P y) l + pairCount P l + List.countP (fun z => P z x) (y :: l)
    rw [List.countP_cons]
    simp only [List.countP_cons, List.countP_nil]
    omega

theorem countP_range_getD {α : Type} (p : α → Bool) (d : α) :
    ∀ l : List α,
      (List.range l.length).countP (fun i => p (l.getD i d)) = l.countP p := by
  intro l
  induction l using List.reverseRecOn with
  | nil => simp
  | append_singleton l y ih =>
    rw [List.length_append, List.length_singleton, List.range_succ, List.countP_append,
      List.countP_append]
    have h1 : (List.range l.length).countP (fun i => p ((l ++ [y]).getD i d)) =
        (List.range l.length).countP (fun i => p (l.getD i d)) := by
      apply List.countP_congr
      intro i hi
      rw [List.getD_append _ _ _ _ (List.mem_range.mp hi)]
    have h2 : ([l.length].countP fun i => p ((l ++ [y]).getD i d)) = [y].countP p := by
      simp only [List.countP_cons, List.countP_nil]
      rw [List.getD_append_right _ _ _ _ (le_refl _)]
      simp
    rw [h1, h2, ih]

theorem pairCount_eq_position (q : Tri → Tri → Bool) :
    ∀ l : List Tri, pairCount q l = position_pair_count q l := by
  intro l
  induction l using List.reverseRecOn with
  | nil => rfl
  | append_singleton l x ih =>
    rw [pairCount_concat, ih]
    unfold position_pair_count
    rw [List.length_append, List.length_singleton]
    rw [show allPairs (l.length + 1) =
      allPairs l.length ++ (List.range l.length).map (fun a => (a, l.length)) from rfl]
    rw [List.countP_append]
    have h1 : (allPairs l.length).countP
        (fun p => q ((l ++ [x]).getD p.1 dTri) ((l ++ [x]).getD p.2 dTri)) =
        (allPairs l.length).countP (fun p => q (l.getD p.1 dTri) (l.getD p.2 dTri)) := by
      apply List.countP_congr
      intro p hp
      have hb := (mem_allPairs p l.length).mp hp
      rw [List.getD_append _ _ _ _ (by omega), List.getD_append _ _ _ _ (by omega)]
    have h2 : ((List.range l.length).map (fun a => (a, l.length))).countP
        (fun p => q ((l ++ [x]).getD p.1 dTri) ((l ++ [x]).getD p.2 dTri)) =
        l.countP (fun y => q y x) := by
      rw [List.countP_map]
      have hx : (l ++ [x]).getD l.length dTri = x := by
        rw [List.getD_append_right _ _ _ _ (le_refl _)]
        simp
      have hstep : (List.range l.length).countP
          ((fun p => q ((l ++ [x]).getD p.1 dTri) ((l ++ [x]).getD p.2 dTri)) ∘
            (fun a => (a, l.length))) =
          (List.range l.length).countP (fun a => q (l.getD a dTri) x) := by
        apply List.countP_congr
        intro a ha
        have hb := List.mem_range.mp ha
        simp only [Function.comp_apply]
        rw [hx, List.getD_append _ _ _ _ hb]
      rw [hstep]
      exact countP_range_getD (fun y => q y x) dTri l
    rw [h1, h2]

theorem pairCount_perm {α : Type} (P : α → α → Bool) (hsym : ∀ a b, P a b = P b a) :
    ∀ {l l' : List α}, l.Perm l' → pairCount P l = pairCount P l' := by
  intro l l' hp
  induction hp with
  | nil => rfl
  | cons x hp ih =>
    show List.countP (P x) _ + pairCount P _ = List.countP (P x) _ + pairCount P _
    rw [hp.countP_eq, ih]
  | swap x y l =>
    show List.countP (P y) (x :: l) + (List.countP (P x) l + pairCount P l) =
      List.countP (P x) (y :: l) + (List.countP (P y) l + pairCount P l)
    rw [List.countP_cons, List.countP_cons, hsym y x]
    omega
  | trans _ _ ih1 ih2 => exact ih1.trans ih2

theorem segments_intersect_symm (a0 a1 b0 b1 : Pt) :
    segments_intersect a0 a1 b0 b1 = segments_intersect b0 b1 a0 a1 := by
  unfold segments_intersect
  dsimp only
  rw [Bool.and_comm]

theorem triangles_overlap_symm (t u : Tri) :
    triangles_overlap t u = triangles_overlap u t := by
  rw [Bool.eq_iff_iff]
  unfold triangles_overlap
  simp only [Bool.or_eq_true, List.any_eq_true]
  constructor
  · rintro ((⟨e1, h1, e2, h2, hs⟩ | hp) | hp)
    · exact Or.inl (Or.inl ⟨e2, h2, e1, h1, by rw [segments_intersect_symm]; exact hs⟩)
    · exact Or.inr hp
    · exact Or.inl (Or.inr hp)
  · rintro ((⟨e2, h2, e1, h1, hs⟩ | hp) | hp)
    · exact Or.inl (Or.inl ⟨e1, h1, e2, h2, by rw [segments_intersect_symm]; exact hs⟩)
    · exact Or.inr hp
    · exact Or.inl (Or.inr hp)

theorem share_cell_symm (t u : Tri) : share_cell t u = share_cell u t := by
  unfold share_cell
  dsimp only
  congr 1
  · exact decide_eq_decide.mpr ⟨fun h => by omega, fun h => by omega⟩
  · exact decide_eq_decide.mpr ⟨fun h => by omega, fun h => by omega⟩

theorem overlap_candidate_symm (t u : Tri) :
    overlap_candidate t u = overlap_candidate u t := by
  unfold overlap_candidate
  rw [share_cell_symm, triangles_overlap_symm]

theorem gval_gridInsert (c : ℤ × ℤ) (idx : ℕ) :
    ∀ (g : Grid) (q : ℤ × ℤ),
      gval (gridInsert g c idx) q = if c = q then gval g q ++ [idx] else gval g q := by
  intro g
  induction g with
  | nil =>
    intro q
    show gval [(c, [idx])] q = _
    by_cases hq : c = q
    · rw [if_pos hq]
      show (if c = q then [idx] else []) = gval [] q ++ [idx]
      rw [if_pos hq]
      rfl
    · rw [if_neg hq]
      show (if c = q then [idx] else []) = gval [] q
      rw [if_neg hq]
      rfl
  | cons e rest ih =>
    intro q
    obtain ⟨c0, l0⟩ := e
    show gval (if c0 = c then (c0, l0 ++ [idx]) :: rest else (c0, l0) :: gridInsert rest c idx) q = _
    by_cases h0 : c0 = c
    · rw [if_pos h0]
      subst h0
      by_cases hq : c0 = q
      · show (if c0 = q then l0 ++ [idx] else gval rest q) = _
        rw [if_pos hq, if_pos hq]
        show _ = (if c0 = q then l0 else gval rest q) ++ [idx]
        rw [if_pos hq]
      · show (if c0 = q then l0 ++ [idx] else gval rest q) = _
        rw [if_neg hq, if_neg hq]
        show _ = (if c0 = q then l0 else gval rest q)
        rw [if_neg hq]
    · rw [if_neg h0]
      by_cases hq : c0 = q
      · have hcq : ¬ c = q := fun hc => h0 (hq.trans hc.symm)
        show (if c0 = q then l0 else gval (gridInsert rest c idx) q) = _
        rw [if_pos hq, if_neg hcq]
        show _ = (if c0 = q then l0 else gval rest q)
        rw [if_pos hq]
      · show (if c0 = q then l0 else gval (gridInsert rest c idx) q) = _
        rw [if_neg hq, ih q]
        by_cases hcq : c = q
        · rw [if_pos hcq, if_pos hcq]
          show _ = (if c0 = q then l0 else gval rest q) ++ [idx]
          rw [if_neg hq]
        · rw [if_neg hcq, if_neg hcq]
          show _ = (if c0 = q then l0 else gval rest q)
          rw [if_neg hq]

theorem gridInsert_keys (c : ℤ × ℤ) (idx : ℕ) :
    ∀ g : Grid, (gridInsert g c idx).map Prod.fst =
      if c ∈ g.map Prod.fst then g.map Prod.fst else g.map Prod.fst ++ [c] := by
  intro g
  induction g with
  | nil => simp [gridInsert]
  | cons e rest ih =>
    obtain ⟨c0, l0⟩ := e
    show ((if c0 = c then (c0, l0 ++ [idx]) :: rest else (c0, l0) :: gridInsert rest c idx).map
      Prod.fst) = _
    by_cases h0 : c0 = c
    · rw [if_pos h0]
      subst h0
      simp
    · rw [if_neg h0]
      simp only [List.map_cons, ih]
      have : (c ∈ c0 :: rest.map Prod.fst) ↔ (c ∈ rest.map Prod.fst) := by
        simp only [List.mem_cons]
        constructor
        · rintro (rfl | h)
          · exact absurd rfl h0
          · exact h
        · exact Or.inr
      by_cases hc : c ∈ rest.map Prod.fst
      · rw [if_pos hc, if_pos (this.mpr hc)]
      · rw [if_neg hc, if_neg (fun hx => hc (this.mp hx))]
        simp

theorem gridInsert_keys_nodup (c : ℤ × ℤ) (idx : ℕ) (g : Grid)
    (h : (g.map Prod.fst).Nodup) : ((gridInsert g c idx).map Prod.fst).Nodup := by
  rw [gridInsert_keys]
  split_ifs with hc
  · exact h
  · exact List.Nodup.append h (List.nodup_singleton c) (by
      intro x hx hx2
      simp only [List.mem_singleton] at hx2
      subst hx2
      exact hc hx)

theorem gval_of_mem : ∀ g : Grid, (g.map Prod.fst).Nodup → ∀ e ∈ g, gval g e.1 = e.2 := by
  intro g
  induction g with
  | nil => intro _ e he; cases he
  | cons e0 rest ih =>
    intro hnd e he
    obtain ⟨c0, l0⟩ := e0
    simp only [List.map_cons, List.nodup_cons] at hnd
    rcases List.mem_cons.mp he with rfl | hrest
    · show (if c0 = c0 then l0 else gval rest c0) = l0
      rw [if_pos rfl]
    · have hne : c0 ≠ e.1 := by
        intro hc
        exact hnd.1 (by
          rw [hc]
          exact List.mem_map.mpr ⟨e, hrest, rfl⟩)
      show (if c0 = e.1 then l0 else gval rest e.1) = e.2
      rw [if_neg hne]
      exact ih hnd.2 e hrest

theorem mem_of_gval_ne : ∀ (g : Grid) (c : ℤ × ℤ), gval g c ≠ [] → (c, gval g c) ∈ g := by
  intro g
  induction g with
  | nil => intro c hc; exact absurd rfl hc
  | cons e0 rest ih =>
    intro c hc
    obtain ⟨c0, l0⟩ := e0
    by_cases h0 : c0 = c
    · subst h0
      show (c0, gval ((c0, l0) :: rest) c0) ∈ _
      have : gval ((c0, l0) :: rest) c0 = l0 := by
        show (if c0 = c0 then l0 else gval rest c0) = l0
        rw [if_pos rfl]
      rw [this]
      exact List.mem_cons_self _ _
    · have hg : gval ((c0, l0) :: rest) c = gval rest c := by
        show (if c0 = c then l0 else gval rest c) = gval rest c
        rw [if_neg h0]
      rw [hg] at hc ⊢
      exact List.mem_cons_of_mem _ (ih c hc)

theorem gval_insert_cells (idx : ℕ) :
    ∀ cs : List (ℤ × ℤ), cs.Nodup → ∀ (g : Grid) (c : ℤ × ℤ),
      gval (insert_cells g idx cs) c = gval g c ++ (if c ∈ cs then [idx] else []) := by
  intro cs
  induction cs with
  | nil => intro _ g c; simp [insert_cells]
  | cons c0 cs ih =>
    intro hnd g c
    rw [List.nodup_cons] at hnd
    show gval (insert_cells (gridInsert g c0 idx) idx cs) c = _
    rw [ih hnd.2, gval_gridInsert]
    by_cases h0 : c0 = c
    · subst h0
      rw [if_pos rfl, if_neg hnd.1, if_pos (List.mem_cons_self _ _)]
      simp
    · rw [if_neg h0]
      by_cases hc : c ∈ cs
      · rw [if_pos hc, if_pos (List.mem_cons_of_mem _ hc)]
      · rw [if_neg hc, if_neg (by
          intro hx
          rcases List.mem_cons.mp hx with rfl | hx
          · exact h0 rfl
          · exact hc hx)]

theorem insert_cells_keys_nodup (idx : ℕ) :
    ∀ (cs : List (ℤ × ℤ)) (g : Grid), (g.map Prod.fst).Nodup →
      ((insert_cells g idx cs).map Prod.fst).Nodup := by
  intro cs
  induction cs with
  | nil => intro g h; exact h
  | cons c0 cs ih =>
    intro g h
    exact ih _ (gridInsert_keys_nodup c0 idx g h)

theorem intRange_mem {a b x : ℤ} : x ∈ intRange a b ↔ a ≤ x ∧ x ≤ b := by
  unfold intRange
  simp only [List.mem_map, List.mem_range]
  constructor
  · rintro ⟨k, hk, rfl⟩
    omega
  · rintro ⟨h1, h2⟩
    exact ⟨(x - a).toNat, by omega, by omega⟩

theorem intRange_nodup (a b : ℤ) : (intRange a b).Nodup :=
  List.Nodup.map (fun x y hxy => by omega) (List.nodup_range _)

theorem product_pairs_nodup (xs ys : List ℤ) (hx : xs.Nodup) (hy : ys.Nodup) :
    (xs.flatMap fun x => ys.map fun y => ((x, y) : ℤ × ℤ)).Nodup := by
  induction xs with
  | nil => simp
  | cons x xs ih =>
    rw [List.nodup_cons] at hx
    rw [List.flatMap_cons]
    refine List.Nodup.append ?_ (ih hx.2) ?_
    · exact List.Nodup.map (fun a b hab => by
        have := congrArg Prod.snd hab
        simpa using this) hy
    · intro p hp hq
      obtain ⟨y, hy1, rfl⟩ := List.mem_map.mp hp
      obtain ⟨x2, hx2, hp2⟩ := List.mem_flatMap.mp hq
      obtain ⟨y2, hy2, heq⟩ := List.mem_map.mp hp2
      have hxx : x2 = x := congrArg Prod.fst heq
      rw [hxx] at hx2
      exact hx.1 hx2

theorem tri_cells_mem (t : Tri) (c : ℤ × ℤ) :
    c ∈ tri_cells t ↔
      ((cell_box t).1 ≤ c.1 ∧ c.1 ≤ (cell_box t).2.2.1) ∧
      ((cell_box t).2.1 ≤ c.2 ∧ c.2 ≤ (cell_box t).2.2.2) := by
  unfold tri_cells
  dsimp only
  simp only [List.mem_flatMap, List.mem_map]
  constructor
  · rintro ⟨cx, hcx, cy, hcy, rfl⟩
    rw [intRange_mem] at hcx hcy
    exact ⟨hcx, hcy⟩
  · rintro ⟨⟨h1, h2⟩, h3, h4⟩
    exact ⟨c.1, intRange_mem.mpr ⟨h1, h2⟩, c.2, intRange_mem.mpr ⟨h3, h4⟩, by simp⟩

theorem pyInt_mono {q r : ℚ} (h : q ≤ r) : pyInt q ≤ pyInt r := by
  unfold pyInt
  split_ifs with h1 h2 h2
  · exact Int.floor_le_floor h
  · exact absurd (le_trans h1 h) h2
  · have hq0 : q ≤ ((0 : ℤ) : ℚ) := by push_cast; exact le_of_not_le h1
    have hr0 : ((0 : ℤ) : ℚ) ≤ r := by push_cast; exact h2
    calc ⌈q⌉ ≤ 0 := Int.ceil_le.mpr hq0
      _ ≤ ⌊r⌋ := Int.le_floor.mpr hr0
  · exact Int.ceil_le_ceil h

theorem cell_box_wf (t : Tri) :
    (cell_box t).1 ≤ (cell_box t).2.2.1 ∧ (cell_box t).2.1 ≤ (cell_box t).2.2.2 := by
  unfold cell_box triangle_aabb
  dsimp only
  constructor <;>
    refine pyInt_mono (mul_le_mul_of_nonneg_right ?_ (by norm_num)) <;>
    exact le_trans (le_trans (min_le_left _ _) (min_le_left _ _))
      (le_trans (le_max_left _ _) (le_max_left _ _))

theorem tri_cells_nodup (t : Tri) : (tri_cells t).Nodup := by
  unfold tri_cells
  dsimp only
  exact product_pairs_nodup _ _ (intRange_nodup _ _) (intRange_nodup _ _)

theorem gval_foldl_build :
    ∀ (l : List (ℕ × Tri)) (g : Grid) (c : ℤ × ℤ),
      gval (l.foldl (fun g it => insert_cells g it.1 (tri_cells it.2)) g) c =
        gval g c ++ l.flatMap (fun it => if c ∈ tri_cells it.2 then [it.1] else []) := by
  intro l
  induction l with
  | nil => intro g c; simp
  | cons it l ih =>
    intro g c
    rw [List.foldl_cons, ih, gval_insert_cells _ _ (tri_cells_nodup _), List.flatMap_cons,
      List.append_assoc]

theorem gval_buildGrid (tris : List Tri) (c : ℤ × ℤ) :
    gval (buildGrid tris) c =
      (tris.enum).flatMap (fun it => if c ∈ tri_cells it.2 then [it.1] else []) := by
  unfold buildGrid
  rw [gval_foldl_build]
  rfl

theorem buildGrid_keys_nodup (tris : List Tri) :
    ((buildGrid tris).map Prod.fst).Nodup := by
  unfold buildGrid
  have hgen : ∀ (l : List (ℕ × Tri)) (g : Grid), (g.map Prod.fst).Nodup →
      ((l.foldl (fun g it => insert_cells g it.1 (tri_cells it.2)) g).map Prod.fst).Nodup := by
    intro l
    induction l with
    | nil => intro g h; exact h
    | cons it l ih => intro g h; exact ih _ (insert_cells_keys_nodup _ _ _ h)
  exact hgen _ [] (by simp)

theorem share_cell_iff (t u : Tri) :
    share_cell t u = true ↔ ∃ c : ℤ × ℤ, c ∈ tri_cells t ∧ c ∈ tri_cells u := by
  unfold share_cell
  dsimp only
  simp only [Bool.and_eq_true, decide_eq_true_eq]
  constructor
  · rintro ⟨hx, hy⟩
    refine ⟨(max (cell_box t).1 (cell_box u).1, max (cell_box t).2.1 (cell_box u).2.1),
      ?_, ?_⟩ <;> rw [tri_cells_mem] <;> refine ⟨⟨?_, ?_⟩, ?_, ?_⟩ <;> omega
  · rintro ⟨c, hct, hcu⟩
    rw [tri_cells_mem] at hct hcu
    constructor <;> omega

theorem flatMap_ite_filter_map (c : ℤ × ℤ) :
    ∀ l : List (ℕ × Tri),
      l.flatMap (fun it => if c ∈ tri_cells it.2 then [it.1] else []) =
        (l.filter (fun it => decide (c ∈ tri_cells it.2))).map Prod.fst := by
  intro l
  induction l with
  | nil => rfl
  | cons it l ih =>
    rw [List.flatMap_cons, ih]
    by_cases hc : c ∈ tri_cells it.2
    · rw [if_pos hc, List.filter_cons_of_pos (by simpa using hc)]
      rfl
    · rw [if_neg hc, List.filter_cons_of_neg (by simpa using hc)]
      rfl

theorem gval_buildGrid_sorted (tris : List Tri) (c : ℤ × ℤ) :
    (gval (buildGrid tris) c).Pairwise (· < ·) := by
  rw [gval_buildGrid, flatMap_ite_filter_map]
  have hsub : ((tris.enum.filter (fun it => decide (c ∈ tri_cells it.2))).map Prod.fst).Sublist
      (tris.enum.map Prod.fst) :=
    List.Sublist.map _ (List.filter_sublist _)
  rw [List.enum_map_fst] at hsub
  exact List.Pairwise.sublist hsub (List.pairwise_lt_range _)

theorem mem_gval_buildGrid (tris : List Tri) (c : ℤ × ℤ) (i : ℕ) :
    i ∈ gval (buildGrid tris) c ↔
      i < tris.length ∧ c ∈ tri_cells (tris.getD i dTri) := by
  rw [gval_buildGrid, flatMap_ite_filter_map]
  simp only [List.mem_map, List.mem_filter, decide_eq_true_eq]
  constructor
  · rintro ⟨it, ⟨hit, hcell⟩, rfl⟩
    have hget := List.mem_enum_iff_get?.mp hit
    have hlen : it.1 < tris.length := by
      by_contra hc
      rw [List.get?_eq_none.mpr (by omega)] at hget
      cases hget
    have hgetD : tris.getD it.1 dTri = it.2 := by
      rw [List.getD_eq_getElem?_getD, ← List.get?_eq_getElem?, hget]
      rfl
    exact ⟨hlen, by rw [hgetD]; exact hcell⟩
  · rintro ⟨hlen, hmem⟩
    refine ⟨(i, tris.getD i dTri), ⟨?_, hmem⟩, rfl⟩
    apply List.mem_enum_iff_get?.mpr
    show tris.get? i = some (tris.getD i dTri)
    rw [List.getD_eq_getElem?_getD, ← List.get?_eq_getElem?]
    cases hg : tris.get? i with
    | none =>
      rw [List.get?_eq_none] at hg
      omega
    | some v => rfl

theorem mem_cellPairs (p : ℕ × ℕ) :
    ∀ l : List ℕ, l.Pairwise (· < ·) →
      (p ∈ cellPairs l ↔ p.1 ∈ l ∧ p.2 ∈ l ∧ p.1 < p.2) := by
  intro l
  induction l with
  | nil => intro _; simp [cellPairs]
  | cons a rest ih =>
    intro hpw
    rw [List.pairwise_cons] at hpw
    rw [cellPairs]
    simp only [List.mem_append, List.mem_map, List.mem_cons]
    rw [ih hpw.2]
    constructor
    · rintro (⟨b, hb, rfl⟩ | ⟨h1, h2, h3⟩)
      · have hab : a < b := hpw.1 b hb
        refine ⟨Or.inl ?_, Or.inr ?_, ?_⟩
        · show min a b = a
          exact min_eq_left (le_of_lt hab)
        · show max a b ∈ rest
          rw [max_eq_right (le_of_lt hab)]
          exact hb
        · show min a b < max a b
          rw [min_eq_left (le_of_lt hab), max_eq_right (le_of_lt hab)]
          exact hab
      · exact ⟨Or.inr h1, Or.inr h2, h3⟩
    · rintro ⟨h1 | h1, h2 | h2, h3⟩
      · omega
      · left
        refine ⟨p.2, h2, ?_⟩
        have hap : a < p.2 := by omega
        rw [Prod.ext_iff]
        constructor
        · show min a p.2 = p.1
          rw [h1, min_eq_left (le_of_lt hap)]
        · show max a p.2 = p.2
          rw [max_eq_right (le_of_lt hap)]
      · have := hpw.1 p.1 h1
        omega
      · exact Or.inr ⟨h1, h2, h3⟩

theorem mem_pair_list (tris : List Tri) (p : ℕ × ℕ) :
    p ∈ pair_list tris ↔
      p.1 < p.2 ∧ p.2 < tris.length ∧
        share_cell (tris.getD p.1 dTri) (tris.getD p.2 dTri) = true := by
  unfold pair_list
  rw [List.mem_flatMap]
  constructor
  · rintro ⟨e, he, hp⟩
    have hkeys := buildGrid_keys_nodup tris
    have he2 : e.2 = gval (buildGrid tris) e.1 := (gval_of_mem _ hkeys e he).symm
    rw [he2] at hp
    rw [mem_cellPairs p _ (gval_buildGrid_sorted tris e.1)] at hp
    obtain ⟨h1, h2, h3⟩ := hp
    rw [mem_gval_buildGrid] at h1 h2
    refine ⟨h3, h2.1, ?_⟩
    rw [share_cell_iff]
    exact ⟨e.1, h1.2, h2.2⟩
  · rintro ⟨h1, h2, h3⟩
    rw [share_cell_iff] at h3
    obtain ⟨c, hct, hcu⟩ := h3
    have hg1 : p.1 ∈ gval (buildGrid tris) c :=
      (mem_gval_buildGrid _ _ _).mpr ⟨by omega, hct⟩
    have hg2 : p.2 ∈ gval (buildGrid tris) c :=
      (mem_gval_buildGrid _ _ _).mpr ⟨h2, hcu⟩
    have hne : gval (buildGrid tris) c ≠ [] := List.ne_nil_of_mem hg1
    refine ⟨(c, gval (buildGrid tris) c), mem_of_gval_ne _ _ hne, ?_⟩
    rw [mem_cellPairs p _ (gval_buildGrid_sorted tris c)]
    exact ⟨hg1, hg2, h1⟩

theorem find_overlapping_pairs_eq (tris : List Tri) :
    find_overlapping_pairs tris = pairCount overlap_candidate tris := by
  unfold find_overlapping_pairs
  by_cases hlen : tris.length < 2
  · rw [if_pos hlen]
    rcases tris with _ | ⟨t, _ | ⟨u, rest⟩⟩
    · rfl
    · rfl
    · exfalso
      rw [List.length_cons, List.length_cons] at hlen
      omega
  · rw [if_neg hlen]
    show (scanPairs tris [] 0 ((buildGrid tris).flatMap fun e => cellPairs e.2)).2 = _
    rw [show ((buildGrid tris).flatMap fun e => cellPairs e.2) = pair_list tris from rfl]
    rw [scanPairs_spec, dcount_eq_card]
    rw [show ([] : List (ℕ × ℕ)).toFinset = ∅ from rfl, Finset.sdiff_empty]
    have hset : (pair_list tris).toFinset.filter (fun x => overlapAt tris x = true) =
        ((allPairs tris.length).filter
          (fun p => overlap_candidate (tris.getD p.1 dTri) (tris.getD p.2 dTri))).toFinset := by
      ext p
      rw [Finset.mem_filter, List.mem_toFinset, List.mem_toFinset, List.mem_filter,
        mem_pair_list, mem_allPairs]
      unfold overlapAt overlap_candidate
      constructor
      · rintro ⟨⟨h1, h2, h3⟩, h4⟩
        exact ⟨⟨h1, h2⟩, by rw [Bool.and_eq_true]; exact ⟨h3, h4⟩⟩
      · rintro ⟨⟨h1, h2⟩, h34⟩
        rw [Bool.and_eq_true] at h34
        exact ⟨⟨h1, h2, h34.1⟩, h34.2⟩
    rw [hset]
    rw [List.toFinset_card_of_nodup (List.Nodup.filter _ (allPairs_nodup _))]
    rw [← List.countP_eq_length_filter]
    rw [pairCount_eq_position]
    unfold position_pair_count
    omega

/-- C5: the uv overlap computation is order-independent — permuting the input
triangle list never changes the count reported by `find_overlapping_pairs`:
the spatial hash plus ordered-index-pair deduplication makes the count equal
to the number of unordered pairs satisfying the symmetric relation
`overlap_candidate`, which is invariant under permutation. -/
theorem uv_overlap_perm_invariant (tris tris' : List Tri) (h : tris.Perm tris') :
    find_overlapping_pairs tris = find_overlapping_pairs tris' := by
  rw [find_overlapping_pairs_eq, find_overlapping_pairs_eq]
  exact pairCount_perm overlap_candidate overlap_candidate_symm h

theorem uv_overlap_perm_invariant_witness :
    ([touch_tri_a, touch_tri_b] : List Tri).Perm [touch_tri_b, touch_tri_a] ∧
      find_overlapping_pairs [touch_tri_a, touch_tri_b] =
        find_overlapping_pairs [touch_tri_b, touch_tri_a] :=
  ⟨List.Perm.swap touch_tri_b touch_tri_a [],
    uv_overlap_perm_invariant _ _ (List.Perm.swap touch_tri_b touch_tri_a [])⟩

/-- C10: two triangles that touch only along a shared edge — their interiors
are disjoint — are nevertheless declared overlapping: the boundary-inclusive
point-in-triangle test applied to the second triangle's first vertex (a vertex
of the first triangle) returns true, so `find_overlapping_pairs` reports a
positive overlap count for this merely-touching layout. -/
theorem triangle_overlap_touching_edge :
    interiors_disjoint touch_tri_a touch_tri_b ∧
      point_in_triangle touch_tri_b.1 touch_tri_a.1 touch_tri_a.2.1 touch_tri_a.2.2 = true ∧
      find_overlapping_pairs [touch_tri_a, touch_tri_b] = 1 := by
  have hpit : point_in_triangle touch_tri_b.1 touch_tri_a.1 touch_tri_a.2.1
      touch_tri_a.2.2 = true := by
    norm_num [point_in_triangle, cross_2d, touch_tri_a, touch_tri_b]
  have hov : triangles_overlap touch_tri_a touch_tri_b = true := by
    norm_num [triangles_overlap, tri_edges, segments_intersect, point_in_triangle,
      cross_2d, touch_tri_a, touch_tri_b]
  have hsc : share_cell touch_tri_a touch_tri_b = true := by
    norm_num [share_cell, cell_box, triangle_aabb, pyInt, grid_res, touch_tri_a, touch_tri_b]
  have hdisj : interiors_disjoint touch_tri_a touch_tri_b := by
    intro p
    rintro ⟨ha, hb⟩
    simp only [strictly_inside, cross_2d, touch_tri_a, touch_tri_b] at ha hb
    rcases ha with ⟨h1, h2, h3⟩ | ⟨h1, h2, h3⟩ <;>
      rcases hb with ⟨h4, h5, h6⟩ | ⟨h4, h5, h6⟩ <;> linarith
  refine ⟨hdisj, hpit, ?_⟩
  rw [find_overlapping_pairs_eq]
  have hcand : overlap_candidate touch_tri_a touch_tri_b = true := by
    rw [overlap_candidate, hsc, hov]
    rfl
  simp [pairCount, List.countP_cons, hcand]
